import Mathlib

/-!
Shallow embedding of the GRACE Discord bot conversational session engine
(`grace_pipeline/discord_bot.py`): the per-user check-in state machine,
the commit-code / passphrase authorization handshake, the one-shot
repository sync step, session finalization and the top-level message
router with wake gating.

Modelling conventions:
* Python dicts keyed by strings become association lists (`dget` / `dset`),
  with assignment-overwrites-existing-key semantics.
* The prompt catalog (`GRACE_STATES`, loaded from a JSON config file and
  presented in sorted-code order by `_dimension_options`) is supplied as a
  `Config` field mapping each dimension to its ordered `(code, label)`
  list; configuration loading is an external collaborator of the engine.
* `secrets.token_hex` (commit-code generation) and the outcome of the
  external `git_sync.sync_repository` call are oracle inputs carried by
  each inbound event (`freshCode`, `syncResult`).
* User-visible message text is transliterated to plain ASCII; message
  identity, order and count mirror the source.
* Python string methods are modelled on the ASCII range by explicit
  character maps (`lower_char`, `upper_char`, `is_digit_char`); all
  strings the engine inspects (codes, digits, keywords) are ASCII.
* Clock values (`time.monotonic`) are natural numbers; each event carries
  the time elapsed since the previous one (`dt`).
-/

namespace GraceBot

/-- ASCII lower-casing of one character (Python `str.lower` on ASCII). -/
def lower_char (c : Char) : Char :=
  if 65 ≤ c.toNat ∧ c.toNat ≤ 90 then Char.ofNat (c.toNat + 32) else c

/-- ASCII upper-casing of one character (Python `str.upper` on ASCII). -/
def upper_char (c : Char) : Char :=
  if 97 ≤ c.toNat ∧ c.toNat ≤ 122 then Char.ofNat (c.toNat - 32) else c

/-- Python `str.lower` restricted to ASCII. -/
def str_lower (s : String) : String := String.mk (s.data.map lower_char)

/-- Python `str.upper` restricted to ASCII. -/
def str_upper (s : String) : String := String.mk (s.data.map upper_char)

/-- ASCII decimal digit test (Python `str.isdigit` on one ASCII char). -/
def is_digit_char (c : Char) : Bool := 48 ≤ c.toNat && c.toNat ≤ 57

/-- Python `str.isdigit`: non-empty and all characters digits. -/
def py_isdigit (s : String) : Bool := !s.data.isEmpty && s.data.all is_digit_char

/-- Python `int(...)` on an all-digit string. -/
def py_int (s : String) : Nat :=
  s.data.foldl (fun a c => a * 10 + (c.toNat - 48)) 0

/-- Python `str.strip` on a character list: drop whitespace at both ends. -/
def strip_chars (l : List Char) : List Char :=
  ((l.dropWhile Char.isWhitespace).reverse.dropWhile Char.isWhitespace).reverse

/-- Python `str.strip`. -/
def py_strip (s : String) : String := String.mk (strip_chars s.data)

/-- Python `str.split()` with no argument: split on whitespace runs
(empty words are discarded by the caller). -/
def split_ws (l : List Char) : List (List Char) :=
  match l with
  | [] => [[]]
  | c :: rest =>
      let acc := split_ws rest
      if c.isWhitespace then [] :: acc
      else
        match acc with
        | [] => [[c]]
        | w :: ws => (c :: w) :: ws

/-- Join words with single spaces (`" ".join(...)`). -/
def join_space (ws : List (List Char)) : List Char :=
  match ws with
  | [] => []
  | [w] => w
  | w :: rest => w ++ ' ' :: join_space rest

/-- Whether `pat` is an initial segment of `l`. -/
def has_initial (pat l : List Char) : Bool :=
  match pat, l with
  | [], _ => true
  | _ :: _, [] => false
  | p :: ps, c :: cs => p == c && has_initial ps cs

/-- Python substring containment `pat in l`. -/
def contains_chars (l pat : List Char) : Bool :=
  if has_initial pat l then true
  else
    match l with
    | [] => false
    | _ :: rest => contains_chars rest pat

/-- The punctuation characters removed by `_normalize_wake_text`. -/
def wake_punct : String := "!¡¿?.,;:()[]-_*`\x27\x22"

/-- `_normalize_wake_text`: strip, lower, collapse whitespace runs to a
single space, remove punctuation. -/
def normalize_wake_text (value : String) : String :=
  let lowered := str_lower (py_strip value)
  let collapsed := join_space ((split_ws lowered.data).filter (fun w => !w.isEmpty))
  String.mk (collapsed.filter (fun c => !wake_punct.data.any (fun p => p == c)))

/-- Deployment configuration resolved at startup (environment variables
`GRACE_ALLOW_PUSH`, `GRACE_REQUIRE_PASSPHRASE`, `GRACE_WAKE_KEYWORD`,
`GRACE_WAKE_TIMEOUT`) plus the loaded prompt catalog `GRACE_STATES`,
already presented per dimension in the sorted-code order that
`_dimension_options` computes. -/
structure Config where
  allowPush : Bool
  requirePassphrase : Bool
  graceStates : String → List (String × String)
  wakeKeyword : String
  wakeTimeout : Nat

/-- `_passphrase_required`: push enabled and passphrase policy on. -/
def passphrase_required (cfg : Config) : Bool :=
  cfg.allowPush && cfg.requirePassphrase

/-- `_wake_word_triggered`: normalized equality or substring containment
of the normalized wake keyword (empty normalized text never triggers). -/
def wake_word_triggered (cfg : Config) (text : String) : Bool :=
  let normalized := normalize_wake_text text
  let wake := normalize_wake_text cfg.wakeKeyword
  if normalized = "" then false
  else if normalized = wake then true
  else contains_chars normalized.data wake.data

/-- Python dict read (`d.get(k)`). -/
def dget {α : Type} (d : List (String × α)) (k : String) : Option α :=
  match d with
  | [] => none
  | (k2, v) :: rest => if k2 = k then some v else dget rest k

/-- Python dict assignment (`d[k] = v`): overwrite or append. -/
def dset {α : Type} (d : List (String × α)) (k : String) (v : α) :
    List (String × α) :=
  match d with
  | [] => [(k, v)]
  | (k2, v2) :: rest =>
      if k2 = k then (k2, v) :: rest else (k2, v2) :: dset rest k v

/-- `DIM_ORDER`: the five GRACE dimensions in fixed order. -/
def DIM_ORDER : List String := ["G", "R", "A", "C", "E"]

/-- `SESSION_STEPS`: the dimensions followed by the note step. -/
def SESSION_STEPS : List String := DIM_ORDER ++ ["NOTE"]

/-- The step identifier at a given index of `SESSION_STEPS`. -/
def dimAt (i : Nat) : String := SESSION_STEPS.getD i ""

/-- Per-user session state (`_start_session` dictionary). -/
structure Session where
  step_index : Nat
  answers : List (String × String)
  bits : List (String × Nat)
  note : String
  last_options : Option (List (String × String))
  pending_collapse_dim : Option String
  awaiting_commit_code : Bool
  commit_code : Option String
  commit_authorized : Bool
  awaiting_passphrase : Bool
  deploy_passphrase : Option String
  prompts_started : Bool
  sync_attempted : Bool
  sync_success : Option Bool
  sync_output : Option String
deriving DecidableEq

/-- `_start_session`: the freshly initialized session record. -/
def start_session : Session :=
  { step_index := 0
    answers := []
    bits := []
    note := ""
    last_options := none
    pending_collapse_dim := none
    awaiting_commit_code := false
    commit_code := none
    commit_authorized := false
    awaiting_passphrase := false
    deploy_passphrase := none
    prompts_started := false
    sync_attempted := false
    sync_success := none
    sync_output := none }

/-- `_dimension_options`: the catalog's ordered (code, label) list. -/
def dimension_options (cfg : Config) (dim : String) : List (String × String) :=
  cfg.graceStates dim

/-- `_record_label`: the label of a code, or the empty string. -/
def record_label (cfg : Config) (dim code : String) : String :=
  (dget (dimension_options cfg dim) code).getD ""

/-- `_code_index`: the second character of a code as a digit, if any. -/
def code_index (code : String) : Option Nat :=
  match code.data with
  | _ :: c1 :: _ => if is_digit_char c1 then some (c1.toNat - 48) else none
  | _ => none

/-- `_bit_for_code`: digit 3 is deferred to the collapse prompt; digits
above 3 give bit 1, digits below give bit 0. -/
def bit_for_code (code : String) : Option Nat :=
  match code_index code with
  | none => none
  | some idx => if idx = 3 then none else if idx > 3 then some 1 else some 0

/-- Observable side effects of handling one inbound event. `send` is a
chat reply; `syncCall` is the external `git_sync.sync_repository` call
with the passphrase (if any) placed in its environment overrides;
`processEntryCall` is the external write-back pipeline invocation with
the rendered entry text, the `allow_commit` flag and the forwarded
deploy passphrase. -/
inductive Effect where
  | send (msg : String)
  | syncCall (envPassphrase : Option String)
  | processEntryCall (text : String) (allowCommit : Bool) (passphrase : Option String)
deriving DecidableEq

/-- Message text constants (transliterated). -/
def msg_activated : String := "Bot activado."

def msg_dormant : String := "El bot esta dormido."

def msg_intro : String := "Iniciamos un check-in guiado GRACE."

def commit_code_prompt (code : String) : String :=
  "Para autorizar commit y push, responde con la clave: " ++ code ++ " o skip."

def msg_skip_commit : String := "Continuare sin commit/push para esta sesion."

def msg_pass_prompt : String :=
  "Clave aceptada. Envia la frase de paso del deploy key o escribe skip."

def msg_wrong_code : String := "Clave incorrecta. Copia el codigo exacto o escribe skip."

def msg_skip_push : String := "Se guardara sin commit/push en esta sesion."

def msg_syncing : String := "Sincronizando repositorio con origin antes de continuar..."

def sync_status_msg (success : Bool) (output : String) : String :=
  (if success then "Pull completado" else "Pull con errores") ++ ":\n" ++ output

def msg_sync_failed_notice : String :=
  "Continuare sin commit/push hasta que sincronices manualmente el repositorio."

def msg_no_session : String :=
  "No hay una sesion activa. Escribe cualquier mensaje para iniciar un nuevo check-in."

def msg_note_prompt : String :=
  "Nota opcional (puedes escribir cualquier cosa o enviar skip):"

def msg_collapse_retry : String := "Selecciona 0 o 1 para colapsar el estado Neutral."

def msg_cancelled : String :=
  "Sesion cancelada. Escribe cualquier cosa para iniciar de nuevo."

def msg_invalid_answer : String :=
  "Respuesta no valida. Usa un numero de la lista o el codigo exacto."

def msg_no_options : String := "No hay opciones configuradas para esta dimension."

def msg_check_denied : String := "Bot inactivo. Envia la palabra clave por DM."

def msg_finalize_reply : String := "(pipeline reply relayed verbatim)"

/-- `_format_prompt`: numbered option list for a dimension (emoji and
description strings omitted as pure display payload). -/
def format_prompt (cfg : Config) (dim : String) : String :=
  let options := dimension_options cfg dim
  if options = [] then msg_no_options
  else
    let header := dim ++ " - Elige con numero o codigo:"
    let lines := (List.range options.length).map (fun i =>
      toString (i + 1) ++ ". " ++ (options.getD i ("", "")).1 ++ " - " ++
        (options.getD i ("", "")).2)
    String.intercalate "\n" (header :: lines)

/-- `_collapse_prompt` for a dimension. -/
def collapse_prompt (dim : String) : String :=
  "Tu dimension " ++ dim ++ " esta en estado Neutral. Responde 0 o 1:"

/-- Polarity label used when rendering the record (`_finalize_session`). -/
def bit_label (b : Option Nat) : String :=
  match b with
  | some 0 => "Yin (0)"
  | some 1 => "Yang (1)"
  | _ => ""

/-- One rendered line of the record for a dimension. -/
def entry_line (cfg : Config) (answers : List (String × String))
    (bits : List (String × Nat)) (dim : String) : String :=
  let code := (dget answers dim).getD ""
  let label := record_label cfg dim code
  let bl := bit_label (dget bits dim)
  let suffix := if bl = "" then "" else " (" ++ bl ++ ")"
  "- " ++ dim ++ ": " ++ code ++ " - " ++ label ++ suffix

/-- The human-readable entry text built by `_finalize_session`. -/
def build_entry_text (cfg : Config) (answers : List (String × String))
    (bits : List (String × Nat)) (note : String) : String :=
  String.intercalate "\n"
    (("Check-in GRACE (Discord bot)" :: DIM_ORDER.map (entry_line cfg answers bits)) ++
      ["- Nota: " ++ (if note = "" then "(sin nota)" else note)])

/-- `_prompt_step`: render the prompt for the current step; for a
dimension step, cache its option list in `last_options`. -/
def prompt_step (cfg : Config) (s? : Option Session) :
    Option Session × List Effect :=
  match s? with
  | none => (none, [Effect.send msg_no_session])
  | some s =>
      let step := dimAt s.step_index
      if step = "NOTE" then (some s, [Effect.send msg_note_prompt])
      else
        let ptext := format_prompt cfg step
        (some { s with last_options := some (dimension_options cfg step) },
         [Effect.send ptext])

/-- `_start_prompts`: mark the prompt phase started, then prompt. -/
def start_prompts (cfg : Config) (s? : Option Session) :
    Option Session × List Effect :=
  match s? with
  | none => (none, [])
  | some s =>
      let s2 := if s.prompts_started then s else { s with prompts_started := true }
      prompt_step cfg (some s2)

/-- `_finalize_session`: render the record, forward to the external
pipeline (passphrase only if still authorized), relay the reply and
destroy the session. -/
def finalize_session (cfg : Config) (s? : Option Session) :
    Option Session × List Effect :=
  match s? with
  | none => (none, [])
  | some s =>
      let entry_text := build_entry_text cfg s.answers s.bits s.note
      let dp := if s.commit_authorized then s.deploy_passphrase else none
      (none,
       [Effect.processEntryCall entry_text s.commit_authorized dp,
        Effect.send msg_finalize_reply])

/-- Python truthiness of an optional string (`if passphrase:`). -/
def truthy_str (o : Option String) : Option String :=
  match o with
  | some p => if p = "" then none else some p
  | none => none

/-- The session record after the sync call returns, before prompting:
the one-shot flags are set, and on failure authorization is revoked and
the passphrase discarded. -/
def sync_outcome (syncResult : Bool × String) (s : Session) : Session :=
  let s2 := { s with
    sync_attempted := true
    sync_success := some syncResult.1
    sync_output := some syncResult.2 }
  if syncResult.1 then s2
  else { s2 with commit_authorized := false, deploy_passphrase := none }

/-- The replies surrounding the sync call: announcement, status with the
log, and on failure the write-only-local notice. -/
def sync_msgs (syncResult : Bool × String) : List Effect :=
  Effect.send (sync_status_msg syncResult.1 syncResult.2) ::
    (if syncResult.1 then [] else [Effect.send msg_sync_failed_notice])

/-- `_sync_repo_before_prompts`: at most one external sync per session
(`sync_attempted` gate); on failure revoke authorization and discard the
passphrase; always proceed to the prompts. `syncResult` is the external
call's outcome. -/
def sync_repo_before_prompts (cfg : Config) (syncResult : Bool × String)
    (s? : Option Session) : Option Session × List Effect :=
  match s? with
  | none => (none, [])
  | some s =>
      if s.sync_attempted then start_prompts cfg (some s)
      else
        let env := truthy_str s.deploy_passphrase
        let s3 := sync_outcome syncResult s
        let pr := start_prompts cfg (some s3)
        (pr.1,
         Effect.send msg_syncing :: Effect.syncCall env ::
           (sync_msgs syncResult ++ pr.2))

/-- `_after_authorization`: once the handshake resolves, sync if
authorized, else go straight to the prompts; a no-op if prompts have
already started. -/
def after_authorization (cfg : Config) (syncResult : Bool × String)
    (s? : Option Session) : Option Session × List Effect :=
  match s? with
  | none => (none, [])
  | some s =>
      if s.prompts_started then (some s, [])
      else if s.commit_authorized then sync_repo_before_prompts cfg syncResult (some s)
      else start_prompts cfg (some s)

/-- `_prompt_commit_code`: store a fresh one-time code and enter the
awaiting-commit-code sub-state. -/
def prompt_commit_code (code : String) (s? : Option Session) :
    Option Session × List Effect :=
  match s? with
  | none => (none, [])
  | some s =>
      (some { s with
          commit_code := some code
          awaiting_commit_code := true
          commit_authorized := false },
       [Effect.send (commit_code_prompt code)])

/-- `_begin_checkin_conversation`: create a session and issue the
commit-code prompt; `code` is the `_generate_commit_code` oracle. -/
def begin_checkin_conversation (code : String) : Option Session × List Effect :=
  let pc := prompt_commit_code code (some start_session)
  (pc.1, Effect.send msg_intro :: pc.2)

/-- The `last_options or _dimension_options(step)` fallback (Python `or`
treats both `None` and the empty list as falsy). -/
def effective_options (cfg : Config) (step : String)
    (lo : Option (List (String × String))) : List (String × String) :=
  match lo with
  | some l => if l = [] then dimension_options cfg step else l
  | none => dimension_options cfg step

/-- Answer selection at a dimension step: a 1-based numeral into the
option list, or an exact case-insensitive code match (stored upper). -/
def select_code (options : List (String × String)) (content : String) :
    Option String :=
  if py_isdigit content then
    let idx := py_int content
    if 1 ≤ idx ∧ idx ≤ options.length then some (options.getD (idx - 1) ("", "")).1
    else none
  else if options.any (fun oc => str_upper content = oc.1) then
    some (str_upper content)
  else none

/-- Global per-user state: the session store entry, the wake registry
entry (expiry of the wake window) and the monotonic clock. -/
structure GState where
  session : Option Session
  awakeExpiry : Option Nat
  now : Nat
deriving DecidableEq

/-- One inbound non-command chat message, with its oracle data: time
elapsed since the previous event, the commit code `secrets` would
generate if a session starts, and the external sync outcome if the sync
step runs. -/
structure MsgInput where
  content : String
  dt : Nat
  freshCode : String
  syncResult : Bool × String
deriving DecidableEq

/-- `_is_user_awake` with its lazy eviction side effect: returns the
wakefulness verdict and the updated registry entry. -/
def is_user_awake (now : Nat) (exp : Option Nat) : Bool × Option Nat :=
  match exp with
  | none => (false, none)
  | some e =>
      if e = 0 then (false, some e)
      else if now > e then (false, none)
      else (true, some e)

/-- The guard `session.get("commit_code") and content.strip().upper() ==
session["commit_code"].upper()` (an empty stored code is falsy). -/
def commit_code_matches (commit_code : Option String) (content : String) : Bool :=
  match commit_code with
  | some c => decide (¬(c = "") ∧ str_upper (py_strip content) = str_upper c)
  | none => false

/-- The `step_index >= len(SESSION_STEPS)` check after an advance:
finalize at the end of the sequence, else prompt the next step. -/
def advance_or_prompt (cfg : Config) (st : GState) (s : Session) :
    GState × List Effect :=
  if s.step_index ≥ SESSION_STEPS.length then
    let fr := finalize_session cfg (some s)
    ({ st with session := fr.1 }, fr.2)
  else
    let pr := prompt_step cfg (some s)
    ({ st with session := pr.1 }, pr.2)

/-- The body of `_handle_session_message` after the authorization
sub-states: collapse resolution, cancellation, the note step and
dimension answer handling. Called only with an existing session whose
awaiting flags are both clear. -/
def handle_session_body (cfg : Config) (inp : MsgInput) (st : GState)
    (s : Session) : GState × List Effect :=
  let content := py_strip inp.content
  match s.pending_collapse_dim with
  | some dim =>
      if content = "0" ∨ content = "1" then
        let s2 := { s with
          bits := dset s.bits dim (py_int content)
          pending_collapse_dim := none
          step_index := s.step_index + 1 }
        advance_or_prompt cfg st s2
      else ({ st with session := some s }, [Effect.send msg_collapse_retry])
  | none =>
      let step := dimAt s.step_index
      if str_lower content = "cancel" ∨ str_lower content = "stop" ∨
          str_lower content = "salir" then
        ({ st with session := none }, [Effect.send msg_cancelled])
      else if step = "NOTE" then
        let s2 := { s with
          note := if str_lower content = "skip" then "" else content
          step_index := SESSION_STEPS.length }
        let fr := finalize_session cfg (some s2)
        ({ st with session := fr.1 }, fr.2)
      else
        let options := effective_options cfg step s.last_options
        match select_code options content with
        | none =>
            let pr := prompt_step cfg (some s)
            ({ st with session := pr.1 }, Effect.send msg_invalid_answer :: pr.2)
        | some code =>
            let s2 := { s with answers := dset s.answers step code }
            match bit_for_code code with
            | none =>
                let s3 := { s2 with pending_collapse_dim := some step }
                ({ st with session := some s3 },
                 [Effect.send (collapse_prompt step)])
            | some bit =>
                let s3 := { s2 with
                  bits := dset s2.bits step bit
                  step_index := s2.step_index + 1 }
                advance_or_prompt cfg st s3

/-- `_handle_session_message`: refresh the wake window, then dispatch on
the authorization sub-states, session existence, and the check-in state
machine. -/
def handle_session_message (cfg : Config) (inp : MsgInput) (st : GState) :
    GState × List Effect :=
  let content := py_strip inp.content
  let st := { st with awakeExpiry := some (st.now + cfg.wakeTimeout) }
  match st.session with
  | some s =>
      if s.awaiting_commit_code then
        if str_lower content = "skip" then
          let s2 := { s with commit_authorized := false, awaiting_commit_code := false }
          let ar := after_authorization cfg inp.syncResult (some s2)
          ({ st with session := ar.1 }, Effect.send msg_skip_commit :: ar.2)
        else if commit_code_matches s.commit_code content then
          let s2 := { s with commit_authorized := true, awaiting_commit_code := false }
          if passphrase_required cfg then
            let s3 := { s2 with awaiting_passphrase := true }
            ({ st with session := some s3 }, [Effect.send msg_pass_prompt])
          else
            let ar := after_authorization cfg inp.syncResult (some s2)
            ({ st with session := ar.1 }, ar.2)
        else ({ st with session := some s }, [Effect.send msg_wrong_code])
      else if s.awaiting_passphrase then
        if str_lower content = "skip" then
          let s2 := { s with
            deploy_passphrase := none
            commit_authorized := false
            awaiting_passphrase := false }
          let ar := after_authorization cfg inp.syncResult (some s2)
          ({ st with session := ar.1 }, Effect.send msg_skip_push :: ar.2)
        else
          let s2 := { s with
            deploy_passphrase := some content
            awaiting_passphrase := false }
          let ar := after_authorization cfg inp.syncResult (some s2)
          ({ st with session := ar.1 }, ar.2)
      else handle_session_body cfg inp st s
  | none =>
      let bc := begin_checkin_conversation inp.freshCode
      ({ st with session := bc.1 }, bc.2)

/-- The `message.content.strip().startswith(bot.command_prefix)` check
in `on_message` (the command marker is `!`). -/
def content_is_command (content : String) : Bool :=
  has_initial "!".data (py_strip content).data

/-- `on_message` for an owner DM that is not from a bot: wake-word
activation, wake gating with lazy eviction, command-marker skip, then
the session handler. Command invocations themselves are separate events
(`Event.checkinCmd` / `Event.otherCmd`). -/
def on_message (cfg : Config) (inp : MsgInput) (st : GState) :
    GState × List Effect :=
  let st := { st with now := st.now + inp.dt }
  if wake_word_triggered cfg inp.content then
    ({ st with awakeExpiry := some (st.now + cfg.wakeTimeout) },
     [Effect.send msg_activated])
  else
    let aw := is_user_awake st.now st.awakeExpiry
    let st := { st with awakeExpiry := aw.2 }
    if !aw.1 then (st, [Effect.send msg_dormant])
    else if content_is_command inp.content then (st, [])
    else handle_session_message cfg inp st

/-- Inbound events for one user: a conversational DM, the `!checkin`
command, or another owner command (`!status` / `!grace`, which only
refresh the wake window as far as session state is concerned). -/
inductive Event where
  | msg (inp : MsgInput)
  | checkinCmd (dt : Nat) (freshCode : String)
  | otherCmd (dt : Nat)
deriving DecidableEq

/-- Dispatch one event. Commands pass `_ensure_owner_awake` (wakefulness
check with lazy eviction, then wake refresh); `!checkin` then runs
`_begin_checkin_conversation`. -/
def step_event (cfg : Config) (st : GState) (ev : Event) : GState × List Effect :=
  match ev with
  | Event.msg inp => on_message cfg inp st
  | Event.checkinCmd dt code =>
      let st := { st with now := st.now + dt }
      let aw := is_user_awake st.now st.awakeExpiry
      if !aw.1 then ({ st with awakeExpiry := aw.2 }, [Effect.send msg_check_denied])
      else
        let st := { st with awakeExpiry := some (st.now + cfg.wakeTimeout) }
        let bc := begin_checkin_conversation code
        ({ st with session := bc.1 }, bc.2)
  | Event.otherCmd dt =>
      let st := { st with now := st.now + dt }
      let aw := is_user_awake st.now st.awakeExpiry
      if !aw.1 then ({ st with awakeExpiry := aw.2 }, [Effect.send msg_check_denied])
      else ({ st with awakeExpiry := some (st.now + cfg.wakeTimeout) }, [])

/-- Run a list of events, discarding effects. -/
def run_events (cfg : Config) (st : GState) (evs : List Event) : GState :=
  match evs with
  | [] => st
  | ev :: rest => run_events cfg (step_event cfg st ev).1 rest

/-- The idle initial state: no session, no wake window. -/
def init : GState := { session := none, awakeExpiry := none, now := 0 }

/-- A state the engine can reach from idle by some event sequence. -/
def Reachable (cfg : Config) (st : GState) : Prop :=
  ∃ evs, run_events cfg init evs = st

/-- The subprocess invocation `process_entry` assembles: the command
line of `encrypt_and_commit.py` and the optional passphrase placed in
the subprocess environment (`GRACE_DEPLOY_KEY_PASSPHRASE`). -/
structure PipelineInvocation where
  cmd : List String
  envPassphrase : Option String
deriving DecidableEq

/-- `process_entry` up to the external subprocess boundary: `none` when
the stripped entry text is empty (nothing is invoked); otherwise the
assembled invocation. The interpreter and script path are host
constants; metadata arrives already JSON-serialized. -/
def process_entry_invocation (cfg : Config) (entry_text : String)
    (metadata_json : Option String) (allow_commit : Bool)
    (deploy_passphrase : Option String) : Option PipelineInvocation :=
  let entry := py_strip entry_text
  if entry = "" then none
  else
    let cmd0 := ["python", "grace_pipeline/encrypt_and_commit.py", "--entry", entry]
    let cmd1 := cmd0 ++
      (match metadata_json with
       | some mj => ["--metadata", mj]
       | none => [])
    let commit_allowed := allow_commit && cfg.allowPush
    let cmd2 := cmd1 ++ (if commit_allowed then ["--push"] else ["--no-commit"])
    let env := if allow_commit then truthy_str deploy_passphrase else none
    some { cmd := cmd2, envPassphrase := env }

/-- Classifier for sync effects. -/
def is_sync_call (e : Effect) : Bool :=
  match e with
  | Effect.syncCall _ => true
  | _ => false

/-- Number of external sync invocations in an effect list. -/
def sync_calls (l : List Effect) : Nat := l.countP is_sync_call

/-! ### Concrete instances used to witness the theorems -/

/-- A small concrete catalog: codes with digits 1, 3 and 5. -/
def optsW : List (String × String) := [("X1", "a"), ("X3", "b"), ("X5", "c")]

/-- Concrete deployment with push disabled (no passphrase step). -/
def cfgW : Config :=
  { allowPush := false
    requirePassphrase := true
    graceStates := fun d => if d = "NOTE" then [] else optsW
    wakeKeyword := "hola bot"
    wakeTimeout := 900 }

/-- Concrete deployment with push enabled (passphrase step active). -/
def cfgP : Config :=
  { cfgW with allowPush := true }

/-- A message with successful-sync oracle data. -/
def mW (c : String) : MsgInput :=
  { content := c, dt := 0, freshCode := "GRACE-AAA", syncResult := (true, "ok") }

/-- A message with failing-sync oracle data. -/
def mF (c : String) : MsgInput :=
  { content := c, dt := 0, freshCode := "GRACE-AAA", syncResult := (false, "boom") }

/-- Wake up, then start a session: awaiting the commit code. -/
def evs_awaitcc : List Event := [Event.msg (mW "hola bot"), Event.msg (mW "hi")]

/-- ... then skip commit: prompting dimension G. -/
def evs_prompt : List Event := evs_awaitcc ++ [Event.msg (mW "skip")]

/-- ... then answer 2 (code X3, neutral): collapse pending on G. -/
def evs_collapse : List Event := evs_prompt ++ [Event.msg (mW "2")]

/-- Under `cfgP`: authorize with the code, supply a passphrase, and have
the sync fail: authorization revoked. -/
def evs_syncfail : List Event :=
  [Event.msg (mF "hola bot"), Event.msg (mF "hi"), Event.msg (mF "grace-aaa"),
   Event.msg (mF "pw")]

/-- The session awaiting the commit code. -/
def sess_awaitcc : Session :=
  { start_session with commit_code := some "GRACE-AAA", awaiting_commit_code := true }

/-- The session prompting dimension G after skipping commit. -/
def sess_prompt : Session :=
  { sess_awaitcc with
      awaiting_commit_code := false
      prompts_started := true
      last_options := some optsW }

/-- The session with the collapse prompt pending on G. -/
def sess_collapse : Session :=
  { sess_prompt with answers := [("G", "X3")], pending_collapse_dim := some "G" }

/-- ... answering 1 (code X1) instead: dimension G resolved, at R. -/
def evs_answered : List Event := evs_prompt ++ [Event.msg (mW "1")]

/-- The session after dimension G resolved with code X1 (bit 0). -/
def sess_answered : Session :=
  { sess_prompt with
      answers := [("G", "X1")]
      bits := [("G", 0)]
      step_index := 1 }

/-- A valid dimension answer sent after the wake window has expired. -/
def m_late : MsgInput :=
  { content := "1", dt := 1000, freshCode := "GRACE-AAA", syncResult := (true, "ok") }

/-- The session after a failed sync: authorization revoked, passphrase
discarded, prompting dimension G. -/
def sess_syncfail : Session :=
  { sess_prompt with
      sync_attempted := true
      sync_success := some false
      sync_output := some "boom" }

/-! ### Basic lemmas about the association-list operations and steps -/

theorem dget_dset_self {α : Type} (d : List (String × α)) (k : String) (v : α) :
    dget (dset d k v) k = some v := by
  induction d with
  | nil => simp [dget, dset]
  | cons hd tl ih =>
      obtain ⟨k2, v2⟩ := hd
      by_cases h : k2 = k
      · simp [dget, dset, h]
      · simp [dget, dset, h, ih]

theorem dget_dset_ne {α : Type} (d : List (String × α)) (k k2 : String) (v : α)
    (h : k ≠ k2) : dget (dset d k v) k2 = dget d k2 := by
  induction d with
  | nil => simp [dget, dset, h]
  | cons hd tl ih =>
      obtain ⟨k3, v3⟩ := hd
      by_cases h3 : k3 = k
      · subst h3
        simp [dget, dset, h]
      · simp [dget, dset, h3, ih]

theorem dget_dset_isSome {α : Type} (d : List (String × α)) (k k2 : String) (v : α)
    (h : (dget d k2).isSome = true) : (dget (dset d k v) k2).isSome = true := by
  by_cases hk : k = k2
  · subst hk
    simp [dget_dset_self]
  · rw [dget_dset_ne d k k2 v hk]
    exact h

theorem steps_length : SESSION_STEPS.length = 6 := by decide

theorem dimAt_lt_ne_note : ∀ i, i < 5 → dimAt i ≠ "NOTE" := by decide

theorem dimAt_five : dimAt 5 = "NOTE" := by decide

theorem dimAt_inj : ∀ i, i < 5 → ∀ j, j < 5 → dimAt i = dimAt j → i = j := by decide

theorem dimAt_eq_note_ge (i : Nat) (h5 : i ≤ 5) (h : dimAt i = "NOTE") : i = 5 := by
  rcases Nat.lt_or_ge i 5 with h1 | h1
  · exact absurd h (dimAt_lt_ne_note i h1)
  · omega

/-! ### Equation lemmas unfolding the session-step helpers -/

theorem prompt_step_eq (cfg : Config) (s : Session) :
    prompt_step cfg (some s) =
      if dimAt s.step_index = "NOTE" then (some s, [Effect.send msg_note_prompt])
      else
        (some { s with last_options := some (dimension_options cfg (dimAt s.step_index)) },
         [Effect.send (format_prompt cfg (dimAt s.step_index))]) := rfl

theorem start_prompts_eq (cfg : Config) (s : Session) :
    start_prompts cfg (some s) =
      prompt_step cfg (some { s with prompts_started := true }) := by
  unfold start_prompts
  by_cases h : s.prompts_started
  · have hs : s = { s with prompts_started := true } := by
      cases s
      simp_all
    simp only [h, if_true]
    rw [← hs]
  · simp [h]

theorem sync_repo_eq (cfg : Config) (r : Bool × String) (s : Session) :
    sync_repo_before_prompts cfg r (some s) =
      if s.sync_attempted then start_prompts cfg (some s)
      else
        ((start_prompts cfg (some (sync_outcome r s))).1,
         Effect.send msg_syncing :: Effect.syncCall (truthy_str s.deploy_passphrase) ::
           (sync_msgs r ++ (start_prompts cfg (some (sync_outcome r s))).2)) := rfl

theorem after_auth_eq (cfg : Config) (r : Bool × String) (s : Session) :
    after_authorization cfg r (some s) =
      if s.prompts_started then (some s, [])
      else if s.commit_authorized then sync_repo_before_prompts cfg r (some s)
      else start_prompts cfg (some s) := rfl

theorem begin_checkin_eq (code : String) :
    begin_checkin_conversation code =
      (some { start_session with
          commit_code := some code
          awaiting_commit_code := true
          commit_authorized := false },
       [Effect.send msg_intro, Effect.send (commit_code_prompt code)]) := rfl

/-! ### The reachability invariant on live sessions -/

/-- Core invariant of every reachable session, independent of the cached
option list: the authorization and collapse sub-flows are mutually
exclusive; the awaiting states are only entered at the start of a
session (before prompts and sync); a failed sync leaves authorization
revoked and the passphrase discarded; the step cursor never passes a
dimension without recording both its answer and its bit. -/
structure SInvCore (s : Session) : Prop where
  step_le : s.step_index ≤ 5
  cc_pp : ¬(s.awaiting_commit_code = true ∧ s.awaiting_passphrase = true)
  cc_col : ¬(s.awaiting_commit_code = true ∧ s.pending_collapse_dim ≠ none)
  pp_col : ¬(s.awaiting_passphrase = true ∧ s.pending_collapse_dim ≠ none)
  cc_fresh : s.awaiting_commit_code = true →
    s.step_index = 0 ∧ s.prompts_started = false ∧ s.sync_attempted = false
  pp_fresh : s.awaiting_passphrase = true →
    s.prompts_started = false ∧ s.sync_attempted = false
  sync_failed : s.sync_success = some false →
    s.commit_authorized = false ∧ s.deploy_passphrase = none
  sync_succ_att : s.sync_success ≠ none → s.sync_attempted = true
  answered : ∀ i, i < s.step_index → i < 5 →
    (dget s.answers (dimAt i)).isSome = true ∧ (dget s.bits (dimAt i)).isSome = true
  future_bits : ∀ i, s.step_index ≤ i → i < 5 → dget s.bits (dimAt i) = none
  pending_ok : ∀ d, s.pending_collapse_dim = some d →
    d = dimAt s.step_index ∧ s.step_index < 5 ∧ (dget s.answers d).isSome = true

/-- Full invariant: additionally, outside the authorization sub-flows
the option list cached for the current dimension step is exactly the
catalog's list for that dimension. -/
structure SInv (cfg : Config) (s : Session) extends SInvCore s : Prop where
  opts_cached : s.awaiting_commit_code = false → s.awaiting_passphrase = false →
    s.step_index < 5 →
    s.last_options = some (dimension_options cfg (dimAt s.step_index))

/-- Invariant of a global state: every live session satisfies `SInv`. -/
def GInv (cfg : Config) (st : GState) : Prop :=
  ∀ s, st.session = some s → SInv cfg s

/-! ### Preservation of the invariant by the session-step helpers -/

theorem sinv_prompt_step (cfg : Config) (s : Session) (h : SInvCore s) :
    ∀ s2, (prompt_step cfg (some s)).1 = some s2 → SInv cfg s2 := by
  intro s2 hs2
  rw [prompt_step_eq] at hs2
  by_cases hn : dimAt s.step_index = "NOTE"
  · rw [if_pos hn] at hs2
    simp only [Option.some.injEq] at hs2
    subst hs2
    have h5 : s.step_index = 5 := dimAt_eq_note_ge _ h.step_le hn
    exact { toSInvCore := h, opts_cached := by intro _ _ hlt; omega }
  · rw [if_neg hn] at hs2
    simp only [Option.some.injEq] at hs2
    subst hs2
    exact
      { toSInvCore :=
          ⟨h.step_le, h.cc_pp, h.cc_col, h.pp_col, h.cc_fresh, h.pp_fresh,
           h.sync_failed, h.sync_succ_att, h.answered, h.future_bits, h.pending_ok⟩
        opts_cached := fun _ _ _ => rfl }

theorem sinvcore_set_ps (s : Session) (h : SInvCore s)
    (hcc : s.awaiting_commit_code = false) (hpp : s.awaiting_passphrase = false) :
    SInvCore { s with prompts_started := true } :=
  ⟨h.step_le, h.cc_pp, h.cc_col, h.pp_col,
   fun hx => absurd (show s.awaiting_commit_code = true from hx) (by simp [hcc]),
   fun hx => absurd (show s.awaiting_passphrase = true from hx) (by simp [hpp]),
   h.sync_failed, h.sync_succ_att, h.answered, h.future_bits, h.pending_ok⟩

theorem sinv_start_prompts (cfg : Config) (s : Session) (h : SInvCore s)
    (hcc : s.awaiting_commit_code = false) (hpp : s.awaiting_passphrase = false) :
    ∀ s2, (start_prompts cfg (some s)).1 = some s2 → SInv cfg s2 := by
  intro s2 hs2
  rw [start_prompts_eq] at hs2
  exact sinv_prompt_step cfg _ (sinvcore_set_ps s h hcc hpp) s2 hs2

theorem sinvcore_sync_outcome (r : Bool × String) (s : Session) (h : SInvCore s)
    (hcc : s.awaiting_commit_code = false) (hpp : s.awaiting_passphrase = false) :
    SInvCore (sync_outcome r s) := by
  unfold sync_outcome
  by_cases hr : r.1
  · rw [if_pos hr]
    refine ⟨h.step_le, ?_, ?_, ?_, ?_, ?_, ?_, ?_, h.answered, h.future_bits, h.pending_ok⟩
    · exact fun hx => absurd (show s.awaiting_commit_code = true from hx.1) (by simp [hcc])
    · exact fun hx => absurd (show s.awaiting_commit_code = true from hx.1) (by simp [hcc])
    · exact fun hx => absurd (show s.awaiting_passphrase = true from hx.1) (by simp [hpp])
    · exact fun hx => absurd (show s.awaiting_commit_code = true from hx) (by simp [hcc])
    · exact fun hx => absurd (show s.awaiting_passphrase = true from hx) (by simp [hpp])
    · intro hx
      exact absurd (show some r.1 = some false from hx) (by simp [hr])
    · intro _
      rfl
  · rw [if_neg hr]
    refine ⟨h.step_le, ?_, ?_, ?_, ?_, ?_, ?_, ?_, h.answered, h.future_bits, h.pending_ok⟩
    · exact fun hx => absurd (show s.awaiting_commit_code = true from hx.1) (by simp [hcc])
    · exact fun hx => absurd (show s.awaiting_commit_code = true from hx.1) (by simp [hcc])
    · exact fun hx => absurd (show s.awaiting_passphrase = true from hx.1) (by simp [hpp])
    · exact fun hx => absurd (show s.awaiting_commit_code = true from hx) (by simp [hcc])
    · exact fun hx => absurd (show s.awaiting_passphrase = true from hx) (by simp [hpp])
    · intro _
      exact ⟨rfl, rfl⟩
    · intro _
      rfl

theorem sinv_sync (cfg : Config) (r : Bool × String) (s : Session) (h : SInvCore s)
    (hcc : s.awaiting_commit_code = false) (hpp : s.awaiting_passphrase = false) :
    ∀ s2, (sync_repo_before_prompts cfg r (some s)).1 = some s2 → SInv cfg s2 := by
  intro s2 hs2
  rw [sync_repo_eq] at hs2
  by_cases ha : s.sync_attempted
  · rw [if_pos ha] at hs2
    exact sinv_start_prompts cfg s h hcc hpp s2 hs2
  · rw [if_neg ha] at hs2
    have hcc2 : (sync_outcome r s).awaiting_commit_code = false := by
      unfold sync_outcome
      by_cases hr : r.1 <;> simp [hr, hcc]
    have hpp2 : (sync_outcome r s).awaiting_passphrase = false := by
      unfold sync_outcome
      by_cases hr : r.1 <;> simp [hr, hpp]
    exact sinv_start_prompts cfg _ (sinvcore_sync_outcome r s h hcc hpp) hcc2 hpp2 s2 hs2

theorem sinv_after_auth (cfg : Config) (r : Bool × String) (s : Session)
    (h : SInvCore s) (hcc : s.awaiting_commit_code = false)
    (hpp : s.awaiting_passphrase = false) (hps : s.prompts_started = false) :
    ∀ s2, (after_authorization cfg r (some s)).1 = some s2 → SInv cfg s2 := by
  intro s2 hs2
  rw [after_auth_eq, hps] at hs2
  simp only [Bool.false_eq_true, if_false] at hs2
  by_cases hca : s.commit_authorized
  · rw [if_pos hca] at hs2
    exact sinv_sync cfg r s h hcc hpp s2 hs2
  · rw [if_neg hca] at hs2
    exact sinv_start_prompts cfg s h hcc hpp s2 hs2

theorem sinv_begin (cfg : Config) (code : String) :
    ∀ s2, (begin_checkin_conversation code).1 = some s2 → SInv cfg s2 := by
  intro s2 hs2
  rw [begin_checkin_eq] at hs2
  simp only [Option.some.injEq] at hs2
  subst hs2
  refine { toSInvCore := ?_, opts_cached := ?_ }
  · refine ⟨show (0 : Nat) ≤ 5 by omega, ?_, ?_, ?_, ?_, ?_, ?_, ?_, ?_, ?_, ?_⟩
    · intro hx
      exact Bool.noConfusion (show false = true from hx.2)
    · intro hx
      exact hx.2 (show (none : Option String) = none from rfl)
    · intro hx
      exact Bool.noConfusion (show false = true from hx.1)
    · intro _
      exact ⟨rfl, rfl, rfl⟩
    · intro hx
      exact Bool.noConfusion (show false = true from hx)
    · intro hx
      exact absurd (show (none : Option Bool) = some false from hx) (by simp)
    · intro hx
      exact absurd (show (none : Option Bool) ≠ none from hx) (by simp)
    · intro i h1 _
      exact absurd (show i < 0 from h1) (Nat.not_lt_zero i)
    · intro i _ _
      rfl
    · intro d hd
      exact Option.noConfusion (show (none : Option String) = some d from hd)
  · intro hx _ _
    exact Bool.noConfusion (show true = false from hx)

theorem bool_false_ne_true {b : Bool} (h : b = false) : ¬b = true := by
  simp [h]

theorem sinv_body (cfg : Config) (inp : MsgInput) (st : GState) (s : Session)
    (h : SInv cfg s) (hcc : s.awaiting_commit_code = false)
    (hpp : s.awaiting_passphrase = false) :
    ∀ s2, (handle_session_body cfg inp st s).1.session = some s2 → SInv cfg s2 := by
  intro s2 hs2
  unfold handle_session_body at hs2
  dsimp only at hs2
  split at hs2
  case _ dim hpd =>
    -- collapse sub-state
    split at hs2
    case isTrue hin =>
      obtain ⟨hdim, hlt5, hans⟩ := h.pending_ok dim hpd
      set b := py_int (py_strip inp.content) with hb
      have core2 : SInvCore { s with
          bits := dset s.bits dim b
          pending_collapse_dim := none
          step_index := s.step_index + 1 } := by
        refine ⟨?_, ?_, ?_, ?_, ?_, ?_, h.sync_failed, h.sync_succ_att, ?_, ?_, ?_⟩
        · show s.step_index + 1 ≤ 5
          omega
        · exact fun hx => bool_false_ne_true hcc hx.1
        · exact fun hx => bool_false_ne_true hcc hx.1
        · exact fun hx => bool_false_ne_true hpp hx.1
        · exact fun hx => absurd hx (bool_false_ne_true hcc)
        · exact fun hx => absurd hx (bool_false_ne_true hpp)
        · intro i h1 h2
          show (dget s.answers (dimAt i)).isSome = true ∧
            (dget (dset s.bits dim b) (dimAt i)).isSome = true
          have h1b : i < s.step_index + 1 := h1
          rcases Nat.lt_or_ge i s.step_index with hi | hi
          · obtain ⟨ha, hb2⟩ := h.answered i hi h2
            exact ⟨ha, dget_dset_isSome _ _ _ _ hb2⟩
          · have hieq : i = s.step_index := by omega
            subst hieq
            refine ⟨?_, ?_⟩
            · rw [← hdim]
              exact hans
            · rw [← hdim, dget_dset_self]
              rfl
        · intro i hi h2
          show dget (dset s.bits dim b) (dimAt i) = none
          have hi2 : s.step_index + 1 ≤ i := hi
          have hne : dim ≠ dimAt i := by
            rw [hdim]
            intro hEq
            have := dimAt_inj s.step_index hlt5 i h2 hEq
            omega
          rw [dget_dset_ne _ _ _ _ hne]
          exact h.future_bits i (by omega) h2
        · intro d hd
          exact Option.noConfusion (show (none : Option String) = some d from hd)
      unfold advance_or_prompt at hs2
      split at hs2
      · exact Option.noConfusion (show (none : Option Session) = some s2 from hs2)
      · exact sinv_prompt_step cfg _ core2 s2 hs2
    case isFalse hin =>
      have : some s = some s2 := hs2
      cases this
      exact h
  case _ hpd =>
    -- no collapse pending: cancellation, note, or dimension answer
    split at hs2
    · -- cancellation
      exact Option.noConfusion (show (none : Option Session) = some s2 from hs2)
    split at hs2
    · -- note step
      exact Option.noConfusion (show (none : Option Session) = some s2 from hs2)
    · -- dimension step
      rename_i hcan hnote
      have hlt5 : s.step_index < 5 := by
        have h5 := h.step_le
        rcases Nat.lt_or_ge s.step_index 5 with hx | hx
        · exact hx
        · have : s.step_index = 5 := by omega
          rw [this, dimAt_five] at hnote
          exact absurd rfl hnote
      split at hs2
      case _ hsel =>
        -- invalid answer: error + re-prompt, session otherwise unchanged
        exact sinv_prompt_step cfg s h.toSInvCore s2 hs2
      case _ code hsel =>
        split at hs2
        case _ hbit =>
          -- neutral code: enter the collapse sub-state
          have : some { s with
              answers := dset s.answers (dimAt s.step_index) code
              pending_collapse_dim := some (dimAt s.step_index) } = some s2 := hs2
          cases this
          refine { toSInvCore := ?_, opts_cached := ?_ }
          · refine ⟨h.step_le, ?_, ?_, ?_, ?_, ?_, h.sync_failed, h.sync_succ_att,
              ?_, h.future_bits, ?_⟩
            · exact fun hx => bool_false_ne_true hcc hx.1
            · exact fun hx => bool_false_ne_true hcc hx.1
            · exact fun hx => bool_false_ne_true hpp hx.1
            · exact fun hx => absurd hx (bool_false_ne_true hcc)
            · exact fun hx => absurd hx (bool_false_ne_true hpp)
            · intro i h1 h2
              obtain ⟨ha, hb2⟩ := h.answered i h1 h2
              exact ⟨dget_dset_isSome _ _ _ _ ha, hb2⟩
            · intro d hd
              have hd2 : some (dimAt s.step_index) = some d := hd
              cases hd2
              refine ⟨rfl, hlt5, ?_⟩
              show (dget (dset s.answers (dimAt s.step_index) code)
                (dimAt s.step_index)).isSome = true
              rw [dget_dset_self]
              rfl
          · intro _ _ _
            exact h.opts_cached hcc hpp hlt5
        case _ bit hbit =>
          -- resolved code: record bit and advance
          have core2 : SInvCore { s with
              answers := dset s.answers (dimAt s.step_index) code
              bits := dset s.bits (dimAt s.step_index) bit
              step_index := s.step_index + 1 } := by
            refine ⟨?_, ?_, ?_, ?_, ?_, ?_, h.sync_failed, h.sync_succ_att, ?_, ?_, ?_⟩
            · show s.step_index + 1 ≤ 5
              omega
            · exact fun hx => bool_false_ne_true hcc hx.1
            · exact fun hx => bool_false_ne_true hcc hx.1
            · exact fun hx => bool_false_ne_true hpp hx.1
            · exact fun hx => absurd hx (bool_false_ne_true hcc)
            · exact fun hx => absurd hx (bool_false_ne_true hpp)
            · intro i h1 h2
              show (dget (dset s.answers (dimAt s.step_index) code)
                  (dimAt i)).isSome = true ∧
                (dget (dset s.bits (dimAt s.step_index) bit) (dimAt i)).isSome = true
              have h1b : i < s.step_index + 1 := h1
              rcases Nat.lt_or_ge i s.step_index with hi | hi
              · obtain ⟨ha, hb2⟩ := h.answered i hi h2
                exact ⟨dget_dset_isSome _ _ _ _ ha, dget_dset_isSome _ _ _ _ hb2⟩
              · have hieq : i = s.step_index := by omega
                subst hieq
                rw [dget_dset_self, dget_dset_self]
                exact ⟨rfl, rfl⟩
            · intro i hi h2
              show dget (dset s.bits (dimAt s.step_index) bit) (dimAt i) = none
              have hi2 : s.step_index + 1 ≤ i := hi
              have hne : dimAt s.step_index ≠ dimAt i := by
                intro hEq
                have := dimAt_inj s.step_index hlt5 i h2 hEq
                omega
              rw [dget_dset_ne _ _ _ _ hne]
              exact h.future_bits i (by omega) h2
            · intro d hd
              have hd2 : s.pending_collapse_dim = some d := hd
              rw [hpd] at hd2
              exact Option.noConfusion hd2
          unfold advance_or_prompt at hs2
          split at hs2
          · exact Option.noConfusion (show (none : Option Session) = some s2 from hs2)
          · exact sinv_prompt_step cfg _ core2 s2 hs2

theorem sync_none_of_not_attempted (s : Session) (h : SInvCore s)
    (hsa : s.sync_attempted = false) : s.sync_success = none := by
  by_cases hz : s.sync_success = none
  · exact hz
  · exact absurd (h.sync_succ_att hz) (by simp [hsa])

theorem ginv_handle (cfg : Config) (inp : MsgInput) (st : GState)
    (hg : GInv cfg st) : GInv cfg (handle_session_message cfg inp st).1 := by
  intro s2 hs2
  unfold handle_session_message at hs2
  dsimp only at hs2
  split at hs2
  case _ s hse =>
    have h := hg s hse
    split at hs2
    case isTrue hacc =>
      obtain ⟨hstep0, hps, hsa⟩ := h.cc_fresh hacc
      have hpp : s.awaiting_passphrase = false := by
        by_cases hx : s.awaiting_passphrase
        · exact absurd ⟨hacc, hx⟩ h.cc_pp
        · simpa using hx
      have hss : s.sync_success = none := sync_none_of_not_attempted s h.toSInvCore hsa
      split at hs2
      case isTrue hskip =>
        refine sinv_after_auth cfg inp.syncResult
          { s with commit_authorized := false, awaiting_commit_code := false }
          ?_ rfl hpp hps s2 hs2
        refine ⟨h.step_le, ?_, ?_, ?_, ?_, ?_, ?_, h.sync_succ_att, h.answered,
          h.future_bits, h.pending_ok⟩
        · exact fun hx => Bool.noConfusion (show false = true from hx.1)
        · exact fun hx => Bool.noConfusion (show false = true from hx.1)
        · exact fun hx => bool_false_ne_true hpp hx.1
        · exact fun hx => Bool.noConfusion (show false = true from hx)
        · exact fun hx => absurd hx (bool_false_ne_true hpp)
        · exact fun hx => absurd (show s.sync_success = some false from hx)
            (by rw [hss]; simp)
      case isFalse hskip =>
        split at hs2
        case isTrue hmatch =>
          have hpend : s.pending_collapse_dim = none := by
            by_cases hz : s.pending_collapse_dim = none
            · exact hz
            · exact absurd ⟨hacc, hz⟩ h.cc_col
          split at hs2
          case isTrue hreq =>
            have hs3 : some { s with
                commit_authorized := true
                awaiting_commit_code := false
                awaiting_passphrase := true } = some s2 := hs2
            cases hs3
            refine { toSInvCore := ?_, opts_cached := ?_ }
            · refine ⟨h.step_le, ?_, ?_, ?_, ?_, ?_, ?_, h.sync_succ_att, h.answered,
                h.future_bits, h.pending_ok⟩
              · exact fun hx => Bool.noConfusion (show false = true from hx.1)
              · exact fun hx => Bool.noConfusion (show false = true from hx.1)
              · exact fun hx => absurd hpend hx.2
              · exact fun hx => Bool.noConfusion (show false = true from hx)
              · exact fun _ => ⟨hps, hsa⟩
              · exact fun hx => absurd (show s.sync_success = some false from hx)
                  (by rw [hss]; simp)
            · exact fun _ hx _ => Bool.noConfusion (show true = false from hx)
          case isFalse hreq =>
            refine sinv_after_auth cfg inp.syncResult
              { s with commit_authorized := true, awaiting_commit_code := false }
              ?_ rfl hpp hps s2 hs2
            refine ⟨h.step_le, ?_, ?_, ?_, ?_, ?_, ?_, h.sync_succ_att, h.answered,
              h.future_bits, h.pending_ok⟩
            · exact fun hx => Bool.noConfusion (show false = true from hx.1)
            · exact fun hx => Bool.noConfusion (show false = true from hx.1)
            · exact fun hx => bool_false_ne_true hpp hx.1
            · exact fun hx => Bool.noConfusion (show false = true from hx)
            · exact fun hx => absurd hx (bool_false_ne_true hpp)
            · exact fun hx => absurd (show s.sync_success = some false from hx)
                (by rw [hss]; simp)
        case isFalse hmatch =>
          have hs3 : some s = some s2 := hs2
          cases hs3
          exact h
    case isFalse hacc =>
      have hcc : s.awaiting_commit_code = false := by simpa using hacc
      split at hs2
      case isTrue hap =>
        obtain ⟨hps, hsa⟩ := h.pp_fresh hap
        have hss : s.sync_success = none := sync_none_of_not_attempted s h.toSInvCore hsa
        split at hs2
        case isTrue hskip =>
          refine sinv_after_auth cfg inp.syncResult
            { s with
                deploy_passphrase := none
                commit_authorized := false
                awaiting_passphrase := false }
            ?_ hcc rfl hps s2 hs2
          refine ⟨h.step_le, ?_, ?_, ?_, ?_, ?_, ?_, h.sync_succ_att, h.answered,
            h.future_bits, h.pending_ok⟩
          · exact fun hx => bool_false_ne_true hcc hx.1
          · exact fun hx => bool_false_ne_true hcc hx.1
          · exact fun hx => Bool.noConfusion (show false = true from hx.1)
          · exact fun hx => absurd hx (bool_false_ne_true hcc)
          · exact fun hx => Bool.noConfusion (show false = true from hx)
          · exact fun hx => absurd (show s.sync_success = some false from hx)
              (by rw [hss]; simp)
        case isFalse hskip =>
          refine sinv_after_auth cfg inp.syncResult
            { s with
                deploy_passphrase := some (py_strip inp.content)
                awaiting_passphrase := false }
            ?_ hcc rfl hps s2 hs2
          refine ⟨h.step_le, ?_, ?_, ?_, ?_, ?_, ?_, h.sync_succ_att, h.answered,
            h.future_bits, h.pending_ok⟩
          · exact fun hx => bool_false_ne_true hcc hx.1
          · exact fun hx => bool_false_ne_true hcc hx.1
          · exact fun hx => Bool.noConfusion (show false = true from hx.1)
          · exact fun hx => absurd hx (bool_false_ne_true hcc)
          · exact fun hx => Bool.noConfusion (show false = true from hx)
          · exact fun hx => absurd (show s.sync_success = some false from hx)
              (by rw [hss]; simp)
      case isFalse hap =>
        have hpp : s.awaiting_passphrase = false := by simpa using hap
        exact sinv_body cfg inp _ s h hcc hpp s2 hs2
  case _ hse =>
    exact sinv_begin cfg inp.freshCode s2 hs2

theorem ginv_on_message (cfg : Config) (inp : MsgInput) (st : GState)
    (hg : GInv cfg st) : GInv cfg (on_message cfg inp st).1 := by
  unfold on_message
  dsimp only
  split
  · exact fun s hx => hg s hx
  · split
    · exact fun s hx => hg s hx
    · split
      · exact fun s hx => hg s hx
      · exact ginv_handle cfg inp _ (fun s hx => hg s hx)

theorem ginv_step (cfg : Config) (st : GState) (ev : Event)
    (hg : GInv cfg st) : GInv cfg (step_event cfg st ev).1 := by
  cases ev with
  | msg inp => exact ginv_on_message cfg inp st hg
  | checkinCmd dt code =>
      unfold step_event
      dsimp only
      split
      · exact fun s hx => hg s hx
      · exact fun s2 hs2 => sinv_begin cfg code s2 hs2
  | otherCmd dt =>
      unfold step_event
      dsimp only
      split
      · exact fun s hx => hg s hx
      · exact fun s hx => hg s hx

theorem ginv_run (cfg : Config) (evs : List Event) :
    ∀ st, GInv cfg st → GInv cfg (run_events cfg st evs) := by
  induction evs with
  | nil => exact fun st hg => hg
  | cons ev rest ih =>
      intro st hg
      exact ih _ (ginv_step cfg st ev hg)

/-- Every live session of a reachable state satisfies the invariant. -/
theorem reachable_sinv (cfg : Config) (st : GState) (hr : Reachable cfg st) :
    ∀ s, st.session = some s → SInv cfg s := by
  obtain ⟨evs, he⟩ := hr
  have hinit : GInv cfg init := by
    intro s hx
    exact Option.noConfusion (show (none : Option Session) = some s from hx)
  rw [← he]
  exact ginv_run cfg evs init hinit

/-! ### Effect-level lemmas -/

@[simp]
theorem is_sync_call_send (m : String) : is_sync_call (Effect.send m) = false := rfl

@[simp]
theorem is_sync_call_sync (p : Option String) :
    is_sync_call (Effect.syncCall p) = true := rfl

@[simp]
theorem is_sync_call_pe (t : String) (a : Bool) (p : Option String) :
    is_sync_call (Effect.processEntryCall t a p) = false := rfl

theorem sync_calls_nil : sync_calls [] = 0 := rfl

theorem sync_calls_cons (e : Effect) (l : List Effect) :
    sync_calls (e :: l) = sync_calls l + (if is_sync_call e then 1 else 0) := by
  simp [sync_calls, List.countP_cons]

theorem sync_calls_append (l1 l2 : List Effect) :
    sync_calls (l1 ++ l2) = sync_calls l1 + sync_calls l2 := by
  simp [sync_calls, List.countP_append]

theorem sync_calls_sends (l : List Effect)
    (h : ∀ e ∈ l, ∃ m, e = Effect.send m) : sync_calls l = 0 := by
  induction l with
  | nil => rfl
  | cons e rest ih =>
      obtain ⟨m, hm⟩ := h e (by simp)
      subst hm
      rw [sync_calls_cons, ih (fun e2 he2 => h e2 (by simp [he2]))]
      simp

theorem prompt_step_fst (cfg : Config) (s : Session) :
    (prompt_step cfg (some s)).1 =
      some (if dimAt s.step_index = "NOTE" then s
            else { s with
                last_options := some (dimension_options cfg (dimAt s.step_index)) }) := by
  rw [prompt_step_eq]
  split <;> simp_all

theorem prompt_step_sends (cfg : Config) (s? : Option Session) :
    ∀ e ∈ (prompt_step cfg s?).2, ∃ m, e = Effect.send m := by
  cases s? with
  | none =>
      intro e he
      simp [prompt_step] at he
      exact ⟨_, he⟩
  | some s =>
      rw [prompt_step_eq]
      split <;> intro e he <;> simp at he <;> exact ⟨_, he⟩

theorem start_prompts_sends (cfg : Config) (s? : Option Session) :
    ∀ e ∈ (start_prompts cfg s?).2, ∃ m, e = Effect.send m := by
  cases s? with
  | none =>
      intro e he
      simp [start_prompts] at he
  | some s =>
      rw [start_prompts_eq]
      exact prompt_step_sends cfg _

theorem sync_msgs_sends (r : Bool × String) :
    ∀ e ∈ sync_msgs r, ∃ m, e = Effect.send m := by
  intro e he
  unfold sync_msgs at he
  by_cases hr : r.1 <;> simp [hr] at he
  · exact ⟨_, he⟩
  · rcases he with he | he <;> exact ⟨_, he⟩

theorem finalize_effects (cfg : Config) (s : Session) :
    (finalize_session cfg (some s)).2 =
      [Effect.processEntryCall (build_entry_text cfg s.answers s.bits s.note)
         s.commit_authorized
         (if s.commit_authorized then s.deploy_passphrase else none),
       Effect.send msg_finalize_reply] := rfl

theorem sync_outcome_attempted (r : Bool × String) (s : Session) :
    (sync_outcome r s).sync_attempted = true := by
  unfold sync_outcome
  split <;> rfl

theorem start_prompts_attempted (cfg : Config) (s : Session) :
    ∃ s2, (start_prompts cfg (some s)).1 = some s2 ∧
      s2.sync_attempted = s.sync_attempted := by
  rw [start_prompts_eq, prompt_step_fst]
  refine ⟨_, rfl, ?_⟩
  split <;> rfl

/-- Sync behavior of `_after_authorization`: never more than one sync
call, none at all once `sync_attempted` is set, and a sync call leaves
`sync_attempted` set on the surviving session. -/
theorem after_auth_sync (cfg : Config) (r : Bool × String) (s : Session) :
    sync_calls (after_authorization cfg r (some s)).2 ≤ 1 ∧
    (s.sync_attempted = true → sync_calls (after_authorization cfg r (some s)).2 = 0) ∧
    (1 ≤ sync_calls (after_authorization cfg r (some s)).2 →
      ∃ s2, (after_authorization cfg r (some s)).1 = some s2 ∧
        s2.sync_attempted = true) := by
  rw [after_auth_eq]
  by_cases hps : s.prompts_started
  · rw [if_pos hps]
    refine ⟨by simp [sync_calls_nil], fun _ => sync_calls_nil, ?_⟩
    intro hx
    simp [sync_calls_nil] at hx
  · rw [if_neg hps]
    by_cases hca : s.commit_authorized
    · rw [if_pos hca, sync_repo_eq]
      by_cases hat : s.sync_attempted
      · rw [if_pos hat]
        have h0 : sync_calls (start_prompts cfg (some s)).2 = 0 :=
          sync_calls_sends _ (start_prompts_sends cfg _)
        refine ⟨by omega, fun _ => h0, ?_⟩
        intro hx
        omega
      · rw [if_neg hat]
        dsimp only
        have h0 : sync_calls (start_prompts cfg (some (sync_outcome r s))).2 = 0 :=
          sync_calls_sends _ (start_prompts_sends cfg _)
        have hm : sync_calls (sync_msgs r) = 0 :=
          sync_calls_sends _ (sync_msgs_sends r)
        have hc : sync_calls
            (Effect.send msg_syncing :: Effect.syncCall (truthy_str s.deploy_passphrase) ::
              (sync_msgs r ++ (start_prompts cfg (some (sync_outcome r s))).2)) = 1 := by
          rw [sync_calls_cons, sync_calls_cons, sync_calls_append, h0, hm]
          simp
        refine ⟨by omega, fun hx => absurd hx (by simp [hat]), ?_⟩
        intro _
        obtain ⟨s2, hs2, hatt⟩ := start_prompts_attempted cfg (sync_outcome r s)
        exact ⟨s2, hs2, by rw [hatt, sync_outcome_attempted]⟩
    · rw [if_neg hca]
      have h0 : sync_calls (start_prompts cfg (some s)).2 = 0 :=
        sync_calls_sends _ (start_prompts_sends cfg _)
      refine ⟨by omega, fun _ => h0, ?_⟩
      intro hx
      omega

/-- The check-in state machine body never invokes the sync primitive. -/
theorem body_sync (cfg : Config) (inp : MsgInput) (st : GState) (s : Session) :
    sync_calls (handle_session_body cfg inp st s).2 = 0 := by
  unfold handle_session_body
  dsimp only
  split
  · split
    · unfold advance_or_prompt
      split
      · dsimp only
        rw [finalize_effects]
        simp [sync_calls_cons, sync_calls_nil]
      · exact sync_calls_sends _ (prompt_step_sends cfg _)
    · simp [sync_calls_cons, sync_calls_nil]
  · split
    · simp [sync_calls_cons, sync_calls_nil]
    split
    · dsimp only
      rw [finalize_effects]
      simp [sync_calls_cons, sync_calls_nil]
    · split
      · rw [sync_calls_cons, sync_calls_sends _ (prompt_step_sends cfg _)]
        simp
      · split
        · simp [sync_calls_cons, sync_calls_nil]
        · unfold advance_or_prompt
          split
          · dsimp only
            rw [finalize_effects]
            simp [sync_calls_cons, sync_calls_nil]
          · exact sync_calls_sends _ (prompt_step_sends cfg _)

/-! ### Digit-string lemmas -/

theorem lower_char_of_digit (c : Char) (h : is_digit_char c = true) :
    lower_char c = c := by
  simp only [is_digit_char, Bool.and_eq_true, decide_eq_true_eq] at h
  unfold lower_char
  rw [if_neg]
  omega

theorem map_lower_of_digits (l : List Char)
    (h : ∀ c ∈ l, is_digit_char c = true) : l.map lower_char = l := by
  induction l with
  | nil => rfl
  | cons c rest ih =>
      rw [List.map_cons, lower_char_of_digit c (h c (List.mem_cons_self c rest)),
        ih (fun e he => h e (List.mem_cons_of_mem c he))]

theorem str_lower_of_digits (s : String) (h : py_isdigit s = true) :
    str_lower s = s := by
  simp only [py_isdigit, Bool.and_eq_true, List.all_eq_true] at h
  unfold str_lower
  rw [map_lower_of_digits s.data (fun c hc => h.2 c hc)]

theorem py_isdigit_ne (s t : String) (h : py_isdigit s = true)
    (ht : py_isdigit t = false) : str_lower s ≠ t := by
  rw [str_lower_of_digits s h]
  intro he
  rw [he] at h
  rw [h] at ht
  exact Bool.noConfusion ht

/-! ### Claim theorems -/

/-- C2: for every session and message, the external `syncRepository`
primitive is invoked at most once while handling the message; once
`sync_attempted` is set it is never invoked again (every later path
skips to the prompts); and when it is invoked, the surviving session has
`sync_attempted` set, so no later message of the session can sync. -/
theorem c2_sync_at_most_once (cfg : Config) (inp : MsgInput) (st : GState) :
    sync_calls (handle_session_message cfg inp st).2 ≤ 1 ∧
    (∀ s, st.session = some s → s.sync_attempted = true →
      sync_calls (handle_session_message cfg inp st).2 = 0) ∧
    (1 ≤ sync_calls (handle_session_message cfg inp st).2 →
      ∃ s2, (handle_session_message cfg inp st).1.session = some s2 ∧
        s2.sync_attempted = true) := by
  unfold handle_session_message
  dsimp only
  split
  case _ s hse =>
    split
    case isTrue hacc =>
      split
      case isTrue hskip =>
        obtain ⟨h1, h2, h3⟩ := after_auth_sync cfg inp.syncResult
          { s with commit_authorized := false, awaiting_commit_code := false }
        have hceq : sync_calls (Effect.send msg_skip_commit ::
            (after_authorization cfg inp.syncResult
              (some { s with
                commit_authorized := false
                awaiting_commit_code := false })).2) =
            sync_calls (after_authorization cfg inp.syncResult
              (some { s with
                commit_authorized := false
                awaiting_commit_code := false })).2 := by
          simp [sync_calls_cons]
        refine ⟨by rw [hceq]; exact h1, ?_, ?_⟩
        · intro s3 hs3 hatt
          rw [hse] at hs3
          injection hs3 with hs3
          subst hs3
          rw [hceq]
          exact h2 hatt
        · intro hx
          rw [hceq] at hx
          exact h3 hx
      case isFalse hskip =>
        split
        case isTrue hmatch =>
          split
          case isTrue hreq =>
            refine ⟨by simp [sync_calls_cons, sync_calls_nil], ?_, ?_⟩
            · intro _ _ _
              simp [sync_calls_cons, sync_calls_nil]
            · intro hx
              simp [sync_calls_cons, sync_calls_nil] at hx
          case isFalse hreq =>
            obtain ⟨h1, h2, h3⟩ := after_auth_sync cfg inp.syncResult
              { s with commit_authorized := true, awaiting_commit_code := false }
            refine ⟨h1, ?_, h3⟩
            intro s3 hs3 hatt
            rw [hse] at hs3
            injection hs3 with hs3
            subst hs3
            exact h2 hatt
        case isFalse hmatch =>
          refine ⟨by simp [sync_calls_cons, sync_calls_nil], ?_, ?_⟩
          · intro _ _ _
            simp [sync_calls_cons, sync_calls_nil]
          · intro hx
            simp [sync_calls_cons, sync_calls_nil] at hx
    case isFalse hacc =>
      split
      case isTrue hap =>
        split
        case isTrue hskip =>
          obtain ⟨h1, h2, h3⟩ := after_auth_sync cfg inp.syncResult
            { s with
                deploy_passphrase := none
                commit_authorized := false
                awaiting_passphrase := false }
          have hceq : sync_calls (Effect.send msg_skip_push ::
              (after_authorization cfg inp.syncResult
                (some { s with
                  deploy_passphrase := none
                  commit_authorized := false
                  awaiting_passphrase := false })).2) =
              sync_calls (after_authorization cfg inp.syncResult
                (some { s with
                  deploy_passphrase := none
                  commit_authorized := false
                  awaiting_passphrase := false })).2 := by
            simp [sync_calls_cons]
          refine ⟨by rw [hceq]; exact h1, ?_, ?_⟩
          · intro s3 hs3 hatt
            rw [hse] at hs3
            injection hs3 with hs3
            subst hs3
            rw [hceq]
            exact h2 hatt
          · intro hx
            rw [hceq] at hx
            exact h3 hx
        case isFalse hskip =>
          obtain ⟨h1, h2, h3⟩ := after_auth_sync cfg inp.syncResult
            { s with
                deploy_passphrase := some (py_strip inp.content)
                awaiting_passphrase := false }
          refine ⟨h1, ?_, h3⟩
          intro s3 hs3 hatt
          rw [hse] at hs3
          injection hs3 with hs3
          subst hs3
          exact h2 hatt
      case isFalse hap =>
        have h0 := body_sync cfg inp
          { st with awakeExpiry := some (st.now + cfg.wakeTimeout) } s
        refine ⟨by rw [h0]; omega, fun _ _ _ => h0, ?_⟩
        intro hx
        rw [h0] at hx
        omega
  case _ hse =>
    rw [begin_checkin_eq]
    refine ⟨by simp [sync_calls_cons, sync_calls_nil], ?_, ?_⟩
    · intro s3 hs3 hatt
      rw [hse] at hs3
      exact Option.noConfusion hs3
    · intro hx
      simp [sync_calls_cons, sync_calls_nil] at hx

/-- C10: for every `process_entry` call with non-empty stripped text,
the pipeline command line ends in `--push` exactly when both the
`allow_commit` argument and the host-level push toggle are set, and in
`--no-commit` otherwise; the passphrase reaches the subprocess only
through the environment, only when `allow_commit` holds and a (truthy)
passphrase was given, and the command line itself never depends on the
passphrase. -/
theorem c10_process_entry_flags (cfg : Config) (entry_text : String)
    (metadata_json : Option String) (allow_commit : Bool) (dp : Option String)
    (hne : ¬py_strip entry_text = "") :
    ∃ inv, process_entry_invocation cfg entry_text metadata_json allow_commit dp =
        some inv ∧
      (inv.cmd.getLast? = some "--push" ↔
        allow_commit = true ∧ cfg.allowPush = true) ∧
      (¬(allow_commit = true ∧ cfg.allowPush = true) →
        inv.cmd.getLast? = some "--no-commit") ∧
      (∀ p, inv.envPassphrase = some p → allow_commit = true ∧ dp = some p) ∧
      (∀ dp2, (process_entry_invocation cfg entry_text metadata_json
          allow_commit dp2).map PipelineInvocation.cmd = some inv.cmd) := by
  unfold process_entry_invocation
  rw [if_neg hne]
  refine ⟨_, rfl, ?_, ?_, ?_, ?_⟩
  · by_cases hc : (allow_commit && cfg.allowPush) = true
    · rw [hc, if_pos rfl, List.getLast?_concat]
      have hab : allow_commit = true ∧ cfg.allowPush = true := by simpa using hc
      exact ⟨fun _ => hab, fun _ => rfl⟩
    · have hc2 : (allow_commit && cfg.allowPush) = false := by simpa using hc
      rw [hc2, if_neg (by decide), List.getLast?_concat]
      constructor
      · intro hx
        injection hx with hx
        exact absurd hx (by decide)
      · intro hx
        have : (allow_commit && cfg.allowPush) = true := by simp [hx.1, hx.2]
        exact absurd this (by simp [hc2])
  · intro hx
    have hc2 : (allow_commit && cfg.allowPush) = false := by
      cases ha : allow_commit <;> cases hb : cfg.allowPush <;> simp_all
    rw [hc2, if_neg (by decide), List.getLast?_concat]
  · intro p hp
    cases ha : allow_commit with
    | false =>
        rw [ha] at hp
        simp at hp
    | true =>
        rw [ha] at hp
        refine ⟨rfl, ?_⟩
        cases dp with
        | none => simp [truthy_str] at hp
        | some q =>
            by_cases hq : q = ""
            · simp [truthy_str, hq] at hp
            · simp [truthy_str, hq] at hp
              rw [hp]
  · intro dp2
    dsimp only
    rw [if_neg hne]
    rfl

/-- C1: in every reachable state whose session has recorded a failed
sync, authorization is revoked and the deploy passphrase is already
discarded, and handling any further message (in particular the one that
triggers finalize) only ever invokes `processEntry` with
`allow_commit = false` and no passphrase. -/
theorem c1_sync_failure_no_passphrase (cfg : Config) (st : GState) (s : Session)
    (inp : MsgInput) (hr : Reachable cfg st) (hs : st.session = some s)
    (hf : s.sync_success = some false) :
    s.commit_authorized = false ∧ s.deploy_passphrase = none ∧
    ∀ t a p, Effect.processEntryCall t a p ∈ (handle_session_message cfg inp st).2 →
      a = false ∧ p = none := by
  have h := reachable_sinv cfg st hr s hs
  have hfa := h.sync_failed hf
  have hatt : s.sync_attempted = true := h.sync_succ_att (by rw [hf]; simp)
  have hcc : s.awaiting_commit_code = false := by
    by_cases hx : s.awaiting_commit_code
    · exact absurd (h.cc_fresh hx).2.2 (by simp [hatt])
    · simpa using hx
  have hpp : s.awaiting_passphrase = false := by
    by_cases hx : s.awaiting_passphrase
    · exact absurd (h.pp_fresh hx).2 (by simp [hatt])
    · simpa using hx
  refine ⟨hfa.1, hfa.2, ?_⟩
  intro t a p hmem
  unfold handle_session_message at hmem
  rw [hs] at hmem
  dsimp only at hmem
  rw [hcc, hpp] at hmem
  simp only [Bool.false_eq_true, if_false] at hmem
  unfold handle_session_body at hmem
  dsimp only at hmem
  split at hmem
  · -- collapse sub-state
    split at hmem
    · unfold advance_or_prompt at hmem
      split at hmem
      · dsimp only at hmem
        rw [finalize_effects] at hmem
        simp [hfa.1] at hmem
        exact ⟨hmem.2.1, hmem.2.2⟩
      · obtain ⟨m, hm⟩ := prompt_step_sends cfg _ _ hmem
        exact Effect.noConfusion hm
    · simp at hmem
  · split at hmem
    · simp at hmem
    split at hmem
    · dsimp only at hmem
      rw [finalize_effects] at hmem
      simp [hfa.1] at hmem
      exact ⟨hmem.2.1, hmem.2.2⟩
    · split at hmem
      · rcases List.mem_cons.mp hmem with hm0 | hm1
        · exact Effect.noConfusion hm0
        · obtain ⟨m, hm⟩ := prompt_step_sends cfg _ _ hm1
          exact Effect.noConfusion hm
      · split at hmem
        · simp at hmem
        · unfold advance_or_prompt at hmem
          split at hmem
          · dsimp only at hmem
            rw [finalize_effects] at hmem
            simp [hfa.1] at hmem
            exact ⟨hmem.2.1, hmem.2.2⟩
          · obtain ⟨m, hm⟩ := prompt_step_sends cfg _ _ hmem
            exact Effect.noConfusion hm

/-- C7: every reachable session state keeps the three sub-flows
(awaiting commit code, awaiting passphrase, collapse pending) pairwise
exclusive, and every dimension the step cursor has passed has both an
`answers` entry and a `bits` entry. -/
theorem c7_session_invariant (cfg : Config) (st : GState) (s : Session)
    (hr : Reachable cfg st) (hs : st.session = some s) :
    (¬(s.awaiting_commit_code = true ∧ s.awaiting_passphrase = true)) ∧
    (¬(s.awaiting_commit_code = true ∧ s.pending_collapse_dim ≠ none)) ∧
    (¬(s.awaiting_passphrase = true ∧ s.pending_collapse_dim ≠ none)) ∧
    (∀ i, i < s.step_index → i < 5 →
      (dget s.answers (dimAt i)).isSome = true ∧
      (dget s.bits (dimAt i)).isSome = true) := by
  have h := reachable_sinv cfg st hr s hs
  exact ⟨h.cc_pp, h.cc_col, h.pp_col, h.answered⟩

/-- C8: at the awaiting-commit-code state, a case-insensitive `skip`
always clears authorization, leaves both awaiting flags clear, never
enters the passphrase sub-state, performs no sync, and proceeds directly
to the first dimension prompt. -/
theorem c8_skip_commit_code (cfg : Config) (st : GState) (s : Session)
    (inp : MsgInput) (hr : Reachable cfg st) (hs : st.session = some s)
    (hacc : s.awaiting_commit_code = true)
    (hskip : str_lower (py_strip inp.content) = "skip") :
    ∃ s2, (handle_session_message cfg inp st).1.session = some s2 ∧
      s2.commit_authorized = false ∧ s2.awaiting_commit_code = false ∧
      s2.awaiting_passphrase = false ∧
      (handle_session_message cfg inp st).2 =
        [Effect.send msg_skip_commit, Effect.send (format_prompt cfg "G")] := by
  have h := reachable_sinv cfg st hr s hs
  obtain ⟨h0, hps, hsa⟩ := h.cc_fresh hacc
  have hpp : s.awaiting_passphrase = false := by
    by_cases hx : s.awaiting_passphrase
    · exact absurd ⟨hacc, hx⟩ h.cc_pp
    · simpa using hx
  unfold handle_session_message
  rw [hs]
  dsimp only
  rw [hacc, hskip]
  simp only [eq_self_iff_true, if_true]
  rw [after_auth_eq]
  dsimp only
  rw [hps]
  simp only [Bool.false_eq_true, if_false]
  rw [start_prompts_eq]
  dsimp only
  rw [prompt_step_eq]
  dsimp only
  rw [h0]
  have hg : dimAt 0 = "G" := rfl
  rw [hg, if_neg (by decide : ¬("G" : String) = "NOTE")]
  exact ⟨_, rfl, rfl, rfl, hpp, rfl⟩

/-- C9: an invalid answer at a dimension step (numeral out of range or
unmatched code) produces exactly an error reply and a re-render of the
same prompt, and leaves the step cursor, the answers, the bits and the
cached option list unchanged. -/
theorem c9_invalid_answer_frame (cfg : Config) (st : GState) (s : Session)
    (inp : MsgInput) (hr : Reachable cfg st) (hs : st.session = some s)
    (hcc : s.awaiting_commit_code = false) (hpp : s.awaiting_passphrase = false)
    (hpend : s.pending_collapse_dim = none) (hlt : s.step_index < 5)
    (hnc : ¬(str_lower (py_strip inp.content) = "cancel" ∨
      str_lower (py_strip inp.content) = "stop" ∨
      str_lower (py_strip inp.content) = "salir"))
    (hsel : select_code (effective_options cfg (dimAt s.step_index) s.last_options)
      (py_strip inp.content) = none) :
    ∃ s2, (handle_session_message cfg inp st).1.session = some s2 ∧
      s2.step_index = s.step_index ∧ s2.answers = s.answers ∧ s2.bits = s.bits ∧
      s2.last_options = s.last_options ∧ s2.pending_collapse_dim = none ∧
      (handle_session_message cfg inp st).2 =
        [Effect.send msg_invalid_answer,
         Effect.send (format_prompt cfg (dimAt s.step_index))] := by
  have h := reachable_sinv cfg st hr s hs
  unfold handle_session_message
  rw [hs]
  dsimp only
  rw [hcc, hpp]
  simp only [Bool.false_eq_true, if_false]
  unfold handle_session_body
  dsimp only
  rw [hpend]
  dsimp only
  rw [if_neg hnc, if_neg (dimAt_lt_ne_note _ hlt), hsel]
  rw [prompt_step_eq]
  dsimp only
  rw [if_neg (dimAt_lt_ne_note _ hlt)]
  exact ⟨_, rfl, rfl, rfl, rfl, (h.opts_cached hcc hpp hlt).symm, hpend, rfl⟩

theorem effective_some (cfg : Config) (step : String)
    (opts : List (String × String)) (hne : opts ≠ []) :
    effective_options cfg step (some opts) = opts := by
  unfold effective_options
  dsimp only
  rw [if_neg hne]

theorem select_code_numeric (options : List (String × String)) (ct : String)
    (k : Nat) (hdig : py_isdigit ct = true) (hk : py_int ct = k)
    (h1 : 1 ≤ k) (h2 : k ≤ options.length) :
    select_code options ct = some (options.getD (k - 1) ("", "")).1 := by
  unfold select_code
  rw [if_pos hdig]
  dsimp only
  rw [hk, if_pos ⟨h1, h2⟩]

theorem select_code_match (options : List (String × String)) (ct : String)
    (hdig : py_isdigit ct = false)
    (hm : options.any (fun oc => str_upper ct = oc.1) = true) :
    select_code options ct = some (str_upper ct) := by
  unfold select_code
  rw [if_neg (by simp [hdig]), if_pos hm]

/-- What the handler does once a dimension answer resolves to a code:
record the answer; a neutral code opens the collapse sub-state without
touching `bits`, while a resolved code records its bit and advances. -/
theorem body_selected (cfg : Config) (inp : MsgInput) (st : GState) (s : Session)
    (hs : st.session = some s)
    (hcc : s.awaiting_commit_code = false) (hpp : s.awaiting_passphrase = false)
    (hpend : s.pending_collapse_dim = none) (hlt : s.step_index < 5)
    (hnc : ¬(str_lower (py_strip inp.content) = "cancel" ∨
      str_lower (py_strip inp.content) = "stop" ∨
      str_lower (py_strip inp.content) = "salir"))
    (code : String)
    (hsel : select_code (effective_options cfg (dimAt s.step_index) s.last_options)
      (py_strip inp.content) = some code) :
    (bit_for_code code = none →
      (handle_session_message cfg inp st).1.session =
        some { s with
          answers := dset s.answers (dimAt s.step_index) code
          pending_collapse_dim := some (dimAt s.step_index) } ∧
      (handle_session_message cfg inp st).2 =
        [Effect.send (collapse_prompt (dimAt s.step_index))]) ∧
    (∀ bit, bit_for_code code = some bit →
      ∃ s2, (handle_session_message cfg inp st).1.session = some s2 ∧
        s2.answers = dset s.answers (dimAt s.step_index) code ∧
        s2.bits = dset s.bits (dimAt s.step_index) bit ∧
        s2.step_index = s.step_index + 1) := by
  unfold handle_session_message
  rw [hs]
  dsimp only
  rw [if_neg (bool_false_ne_true hcc), if_neg (bool_false_ne_true hpp)]
  unfold handle_session_body
  dsimp only
  rw [hpend]
  dsimp only
  rw [if_neg hnc, if_neg (dimAt_lt_ne_note _ hlt), hsel]
  dsimp only
  constructor
  · intro hbit
    rw [hbit]
    dsimp only
    exact ⟨rfl, rfl⟩
  · intro bit hbit
    rw [hbit]
    dsimp only
    unfold advance_or_prompt
    dsimp only
    rw [steps_length, if_neg (by omega)]
    rw [prompt_step_fst]
    refine ⟨_, rfl, ?_, ?_, ?_⟩ <;> split <;> rfl

/-- C6: at a dimension step with cached option list `opts`, a numeral
`k` in `1..len(opts)` stores `opts[k-1]`'s code as that dimension's
answer, and an exact case-insensitive match of a listed code stores the
upper-cased input. -/
theorem c6_numeric_selection (cfg : Config) (st : GState) (s : Session)
    (inp : MsgInput) (opts : List (String × String))
    (hs : st.session = some s)
    (hcc : s.awaiting_commit_code = false) (hpp : s.awaiting_passphrase = false)
    (hpend : s.pending_collapse_dim = none) (hlt : s.step_index < 5)
    (hopts : s.last_options = some opts) (hne : opts ≠ []) :
    (∀ k, py_isdigit (py_strip inp.content) = true →
      py_int (py_strip inp.content) = k → 1 ≤ k → k ≤ opts.length →
      ∃ s2, (handle_session_message cfg inp st).1.session = some s2 ∧
        dget s2.answers (dimAt s.step_index) = some (opts.getD (k - 1) ("", "")).1) ∧
    ((¬py_isdigit (py_strip inp.content) = true) →
      opts.any (fun oc => str_upper (py_strip inp.content) = oc.1) = true →
      ¬(str_lower (py_strip inp.content) = "cancel" ∨
        str_lower (py_strip inp.content) = "stop" ∨
        str_lower (py_strip inp.content) = "salir") →
      ∃ s2, (handle_session_message cfg inp st).1.session = some s2 ∧
        dget s2.answers (dimAt s.step_index) =
          some (str_upper (py_strip inp.content))) := by
  constructor
  · intro k hdig hk h1 h2
    have hnc : ¬(str_lower (py_strip inp.content) = "cancel" ∨
        str_lower (py_strip inp.content) = "stop" ∨
        str_lower (py_strip inp.content) = "salir") := by
      rintro (hx | hx | hx)
      · exact py_isdigit_ne _ "cancel" hdig (by decide) hx
      · exact py_isdigit_ne _ "stop" hdig (by decide) hx
      · exact py_isdigit_ne _ "salir" hdig (by decide) hx
    have hsel : select_code
        (effective_options cfg (dimAt s.step_index) s.last_options)
        (py_strip inp.content) = some (opts.getD (k - 1) ("", "")).1 := by
      rw [hopts, effective_some cfg _ opts hne]
      exact select_code_numeric opts _ k hdig hk h1 h2
    obtain ⟨hcol, hadv⟩ := body_selected cfg inp st s hs hcc hpp hpend hlt hnc _ hsel
    cases hbit : bit_for_code (opts.getD (k - 1) ("", "")).1 with
    | none =>
        obtain ⟨hsess, _⟩ := hcol hbit
        refine ⟨_, hsess, ?_⟩
        exact dget_dset_self _ _ _
    | some bit =>
        obtain ⟨s2, hsess, ha, _, _⟩ := hadv bit hbit
        refine ⟨s2, hsess, ?_⟩
        rw [ha]
        exact dget_dset_self _ _ _
  · intro hdig hm hnc
    have hdig2 : py_isdigit (py_strip inp.content) = false := by simpa using hdig
    have hsel : select_code
        (effective_options cfg (dimAt s.step_index) s.last_options)
        (py_strip inp.content) = some (str_upper (py_strip inp.content)) := by
      rw [hopts, effective_some cfg _ opts hne]
      exact select_code_match opts _ hdig2 hm
    obtain ⟨hcol, hadv⟩ := body_selected cfg inp st s hs hcc hpp hpend hlt hnc _ hsel
    cases hbit : bit_for_code (str_upper (py_strip inp.content)) with
    | none =>
        obtain ⟨hsess, _⟩ := hcol hbit
        refine ⟨_, hsess, ?_⟩
        exact dget_dset_self _ _ _
    | some bit =>
        obtain ⟨s2, hsess, ha, _, _⟩ := hadv bit hbit
        refine ⟨s2, hsess, ?_⟩
        rw [ha]
        exact dget_dset_self _ _ _

/-- C5: for an accepted answer code at a dimension step, a code with
second digit 3 only opens the collapse sub-state — `bits[dim]` stays
unset until an explicit `0`/`1` reply, and any other collapse reply is
rejected leaving the session unchanged — while digits 1 and 2 set
`bits[dim] = 0` immediately and digits 4 and 5 set `bits[dim] = 1`
immediately, advancing the step. -/
theorem c5_bit_assignment (cfg : Config) (st : GState) (s : Session)
    (inp : MsgInput) (code : String)
    (hr : Reachable cfg st) (hs : st.session = some s)
    (hcc : s.awaiting_commit_code = false) (hpp : s.awaiting_passphrase = false)
    (hpend : s.pending_collapse_dim = none) (hlt : s.step_index < 5)
    (hnc : ¬(str_lower (py_strip inp.content) = "cancel" ∨
      str_lower (py_strip inp.content) = "stop" ∨
      str_lower (py_strip inp.content) = "salir"))
    (hsel : select_code (effective_options cfg (dimAt s.step_index) s.last_options)
      (py_strip inp.content) = some code) :
    (code_index code = some 3 →
      ∃ s2, (handle_session_message cfg inp st).1.session = some s2 ∧
        s2.pending_collapse_dim = some (dimAt s.step_index) ∧
        s2.step_index = s.step_index ∧
        dget s2.bits (dimAt s.step_index) = none ∧
        ∀ inp2 st2, st2.session = some s2 →
          ((py_strip inp2.content = "0" ∨ py_strip inp2.content = "1") →
            ∃ s3, (handle_session_message cfg inp2 st2).1.session = some s3 ∧
              dget s3.bits (dimAt s.step_index) =
                some (py_int (py_strip inp2.content)) ∧
              s3.step_index = s.step_index + 1) ∧
          (¬(py_strip inp2.content = "0" ∨ py_strip inp2.content = "1") →
            (handle_session_message cfg inp2 st2).1.session = some s2 ∧
            (handle_session_message cfg inp2 st2).2 =
              [Effect.send msg_collapse_retry])) ∧
    ((code_index code = some 1 ∨ code_index code = some 2) →
      ∃ s2, (handle_session_message cfg inp st).1.session = some s2 ∧
        dget s2.bits (dimAt s.step_index) = some 0 ∧
        s2.step_index = s.step_index + 1) ∧
    ((code_index code = some 4 ∨ code_index code = some 5) →
      ∃ s2, (handle_session_message cfg inp st).1.session = some s2 ∧
        dget s2.bits (dimAt s.step_index) = some 1 ∧
        s2.step_index = s.step_index + 1) := by
  have h := reachable_sinv cfg st hr s hs
  obtain ⟨hcol, hadv⟩ := body_selected cfg inp st s hs hcc hpp hpend hlt hnc code hsel
  refine ⟨?_, ?_, ?_⟩
  · intro h3
    have hbit : bit_for_code code = none := by
      unfold bit_for_code
      rw [h3]
      decide
    obtain ⟨hsess, _⟩ := hcol hbit
    refine ⟨_, hsess, rfl, rfl, h.future_bits s.step_index (Nat.le_refl _) hlt, ?_⟩
    intro inp2 st2 hst2
    unfold handle_session_message
    rw [hst2]
    dsimp only
    rw [if_neg (bool_false_ne_true hcc), if_neg (bool_false_ne_true hpp)]
    unfold handle_session_body
    dsimp only
    refine ⟨?_, ?_⟩
    · intro h01
      rw [if_pos h01]
      unfold advance_or_prompt
      dsimp only
      rw [steps_length, if_neg (by omega)]
      rw [prompt_step_fst]
      refine ⟨_, rfl, ?_, ?_⟩
      · split <;> exact dget_dset_self _ _ _
      · split <;> rfl
    · intro h01
      rw [if_neg h01]
      exact ⟨rfl, rfl⟩
  · intro h12
    have hbit : bit_for_code code = some 0 := by
      unfold bit_for_code
      rcases h12 with hx | hx <;> rw [hx] <;> decide
    obtain ⟨s2, hsess, _, hb, hstep⟩ := hadv 0 hbit
    refine ⟨s2, hsess, ?_, hstep⟩
    rw [hb]
    exact dget_dset_self _ _ _
  · intro h45
    have hbit : bit_for_code code = some 1 := by
      unfold bit_for_code
      rcases h45 with hx | hx <;> rw [hx] <;> decide
    obtain ⟨s2, hsess, _, hb, hstep⟩ := hadv 1 hbit
    refine ⟨s2, hsess, ?_, hstep⟩
    rw [hb]
    exact dget_dset_self _ _ _

/-- C3 as stated is false on the code: in the collapse-pending state a
`cancel` message is rejected with the collapse re-prompt and the session
survives unchanged (the cancellation check comes after the collapse
branch). Shown on a concrete reachable state. -/
theorem c3_counterexample :
    (run_events cfgW init evs_collapse).session = some sess_collapse ∧
    sess_collapse.pending_collapse_dim = some "G" ∧
    (handle_session_message cfgW (mW "cancel")
      (run_events cfgW init evs_collapse)).1.session = some sess_collapse ∧
    (handle_session_message cfgW (mW "cancel")
      (run_events cfgW init evs_collapse)).2 =
      [Effect.send msg_collapse_retry] := by
  decide

/-- C3 amended: outside the authorization sub-flows, a cancellation
token (`cancel`/`stop`/`salir`, case-insensitive) at a dimension prompt
or at the note step removes the session, and any next message from that
user starts a brand-new session with a newly generated commit code;
in the collapse-pending state, however, the tokens are rejected with the
collapse re-prompt and the session persists unchanged. -/
theorem c3_cancel_amended (cfg : Config) (st : GState) (s : Session)
    (inp : MsgInput) (hs : st.session = some s)
    (hcc : s.awaiting_commit_code = false) (hpp : s.awaiting_passphrase = false)
    (htok : str_lower (py_strip inp.content) = "cancel" ∨
      str_lower (py_strip inp.content) = "stop" ∨
      str_lower (py_strip inp.content) = "salir") :
    (s.pending_collapse_dim = none →
      (handle_session_message cfg inp st).1.session = none ∧
      (handle_session_message cfg inp st).2 = [Effect.send msg_cancelled]) ∧
    (∀ d, s.pending_collapse_dim = some d →
      (handle_session_message cfg inp st).1.session = some s ∧
      (handle_session_message cfg inp st).2 = [Effect.send msg_collapse_retry]) ∧
    (∀ inp2 st2, st2.session = none →
      (handle_session_message cfg inp2 st2).1.session =
        some { start_session with
            commit_code := some inp2.freshCode
            awaiting_commit_code := true
            commit_authorized := false } ∧
      (handle_session_message cfg inp2 st2).2 =
        [Effect.send msg_intro, Effect.send (commit_code_prompt inp2.freshCode)]) := by
  have hne01 : ¬(py_strip inp.content = "0" ∨ py_strip inp.content = "1") := by
    rintro (hx | hx) <;> rw [hx] at htok <;> revert htok <;> decide
  refine ⟨?_, ?_, ?_⟩
  · intro hpend
    unfold handle_session_message
    rw [hs]
    dsimp only
    rw [if_neg (bool_false_ne_true hcc), if_neg (bool_false_ne_true hpp)]
    unfold handle_session_body
    dsimp only
    rw [hpend]
    dsimp only
    rw [if_pos htok]
    exact ⟨rfl, rfl⟩
  · intro d hd
    unfold handle_session_message
    rw [hs]
    dsimp only
    rw [if_neg (bool_false_ne_true hcc), if_neg (bool_false_ne_true hpp)]
    unfold handle_session_body
    dsimp only
    rw [hd]
    dsimp only
    rw [if_neg hne01]
    exact ⟨rfl, rfl⟩
  · intro inp2 st2 hst2
    unfold handle_session_message
    rw [hst2]
    dsimp only
    rw [begin_checkin_eq]
    exact ⟨rfl, rfl⟩

/-- C4 as stated is false on the code: `on_message` applies the wake
check to every non-wake DM, including messages of an in-progress
session. Concretely: with an active session at a dimension prompt, the
valid answer `1` sent after the wake window has expired is answered with
the dormant notice and is not processed (the session, in particular its
answers, is unchanged). -/
theorem c4_counterexample :
    (run_events cfgW init evs_prompt).session = some sess_prompt ∧
    select_code optsW (py_strip m_late.content) = some "X1" ∧
    (on_message cfgW m_late (run_events cfgW init evs_prompt)).2 =
      [Effect.send msg_dormant] ∧
    (on_message cfgW m_late (run_events cfgW init evs_prompt)).1.session =
      some sess_prompt ∧
    sess_prompt.answers = [] := by
  decide

/-- C4 amended: wake gating applies to every non-wake direct message,
mid-session ones included — once the wake window has expired, the
message is answered with the dormant notice and not processed, though
the session itself persists (and each message that is processed
refreshes the window, so only a gap longer than the timeout triggers
this). -/
theorem c4_wake_gating_amended (cfg : Config) (inp : MsgInput) (st : GState)
    (s : Session) (hs : st.session = some s)
    (hwake : wake_word_triggered cfg inp.content = false)
    (hexp : (is_user_awake (st.now + inp.dt) st.awakeExpiry).1 = false) :
    (on_message cfg inp st).1.session = some s ∧
    (on_message cfg inp st).2 = [Effect.send msg_dormant] := by
  unfold on_message
  dsimp only
  rw [hwake]
  simp only [Bool.false_eq_true, if_false]
  rw [hexp]
  simp only [Bool.not_false, if_true]
  exact ⟨hs, trivial⟩

/-! ### Witnesses: the claim theorems at concrete reachable states -/

theorem c1_witness :
    (run_events cfgP init evs_syncfail).session = some sess_syncfail ∧
    sess_syncfail.sync_success = some false ∧
    (sess_syncfail.commit_authorized = false ∧
      sess_syncfail.deploy_passphrase = none ∧
      ∀ t a p, Effect.processEntryCall t a p ∈
        (handle_session_message cfgP (mF "skip")
          (run_events cfgP init evs_syncfail)).2 →
        a = false ∧ p = none) :=
  ⟨by decide, by decide,
   c1_sync_failure_no_passphrase cfgP (run_events cfgP init evs_syncfail)
     sess_syncfail (mF "skip") ⟨evs_syncfail, rfl⟩ (by decide) (by decide)⟩

theorem c2_witness :
    (run_events cfgP init evs_syncfail).session = some sess_syncfail ∧
    sess_syncfail.sync_attempted = true ∧
    sync_calls (handle_session_message cfgP (mF "1")
      (run_events cfgP init evs_syncfail)).2 = 0 :=
  ⟨by decide, by decide,
   (c2_sync_at_most_once cfgP (mF "1") (run_events cfgP init evs_syncfail)).2.1
     sess_syncfail (by decide) (by decide)⟩

theorem c3_witness :
    (run_events cfgW init evs_prompt).session = some sess_prompt ∧
    sess_prompt.pending_collapse_dim = none ∧
    ((handle_session_message cfgW (mW "cancel")
        (run_events cfgW init evs_prompt)).1.session = none ∧
      (handle_session_message cfgW (mW "cancel")
        (run_events cfgW init evs_prompt)).2 = [Effect.send msg_cancelled]) :=
  ⟨by decide, by decide,
   (c3_cancel_amended cfgW (run_events cfgW init evs_prompt) sess_prompt
      (mW "cancel") (by decide) (by decide) (by decide) (by decide)).1 (by decide)⟩

theorem c4_witness :
    (run_events cfgW init evs_prompt).session = some sess_prompt ∧
    wake_word_triggered cfgW m_late.content = false ∧
    (is_user_awake ((run_events cfgW init evs_prompt).now + m_late.dt)
      (run_events cfgW init evs_prompt).awakeExpiry).1 = false ∧
    ((on_message cfgW m_late (run_events cfgW init evs_prompt)).1.session =
        some sess_prompt ∧
      (on_message cfgW m_late (run_events cfgW init evs_prompt)).2 =
        [Effect.send msg_dormant]) :=
  ⟨by decide, by decide, by decide,
   c4_wake_gating_amended cfgW m_late (run_events cfgW init evs_prompt)
     sess_prompt (by decide) (by decide) (by decide)⟩

theorem c5_witness :
    (run_events cfgW init evs_prompt).session = some sess_prompt ∧
    code_index "X3" = some 3 ∧
    ∃ s2, (handle_session_message cfgW (mW "2")
        (run_events cfgW init evs_prompt)).1.session = some s2 ∧
      s2.pending_collapse_dim = some "G" ∧ dget s2.bits "G" = none := by
  refine ⟨by decide, by decide, ?_⟩
  have hc := (c5_bit_assignment cfgW (run_events cfgW init evs_prompt) sess_prompt
    (mW "2") "X3" ⟨evs_prompt, rfl⟩ (by decide) (by decide) (by decide) (by decide)
    (by decide) (by decide) (by decide)).1 (by decide)
  obtain ⟨s2, h1, h2, h3, h4, h5⟩ := hc
  exact ⟨s2, h1, h2, h4⟩

theorem c6_witness :
    (run_events cfgW init evs_prompt).session = some sess_prompt ∧
    sess_prompt.last_options = some optsW ∧
    ∃ s2, (handle_session_message cfgW (mW "1")
        (run_events cfgW init evs_prompt)).1.session = some s2 ∧
      dget s2.answers "G" = some "X1" := by
  refine ⟨by decide, by decide, ?_⟩
  have hc := (c6_numeric_selection cfgW (run_events cfgW init evs_prompt)
    sess_prompt (mW "1") optsW (by decide) (by decide) (by decide) (by decide)
    (by decide) (by decide) (by decide)).1 1 (by decide) (by decide) (by decide)
    (by decide)
  obtain ⟨s2, h1, h2⟩ := hc
  exact ⟨s2, h1, h2⟩

theorem c7_witness :
    (run_events cfgW init evs_answered).session = some sess_answered ∧
    (¬(sess_answered.awaiting_commit_code = true ∧
        sess_answered.awaiting_passphrase = true)) ∧
    (∀ i, i < sess_answered.step_index → i < 5 →
      (dget sess_answered.answers (dimAt i)).isSome = true ∧
      (dget sess_answered.bits (dimAt i)).isSome = true) := by
  have hc := c7_session_invariant cfgW (run_events cfgW init evs_answered)
    sess_answered ⟨evs_answered, rfl⟩ (by decide)
  exact ⟨by decide, hc.1, hc.2.2.2⟩

theorem c8_witness :
    (run_events cfgW init evs_awaitcc).session = some sess_awaitcc ∧
    sess_awaitcc.awaiting_commit_code = true ∧
    ∃ s2, (handle_session_message cfgW (mW "skip")
        (run_events cfgW init evs_awaitcc)).1.session = some s2 ∧
      s2.commit_authorized = false ∧ s2.awaiting_commit_code = false ∧
      s2.awaiting_passphrase = false ∧
      (handle_session_message cfgW (mW "skip")
        (run_events cfgW init evs_awaitcc)).2 =
        [Effect.send msg_skip_commit, Effect.send (format_prompt cfgW "G")] :=
  ⟨by decide, by decide,
   c8_skip_commit_code cfgW (run_events cfgW init evs_awaitcc) sess_awaitcc
     (mW "skip") ⟨evs_awaitcc, rfl⟩ (by decide) (by decide) (by decide)⟩

theorem c9_witness :
    (run_events cfgW init evs_prompt).session = some sess_prompt ∧
    select_code (effective_options cfgW (dimAt sess_prompt.step_index)
      sess_prompt.last_options) (py_strip (mW "9").content) = none ∧
    ∃ s2, (handle_session_message cfgW (mW "9")
        (run_events cfgW init evs_prompt)).1.session = some s2 ∧
      s2.step_index = sess_prompt.step_index ∧
      s2.answers = sess_prompt.answers ∧ s2.bits = sess_prompt.bits ∧
      s2.last_options = sess_prompt.last_options ∧
      s2.pending_collapse_dim = none ∧
      (handle_session_message cfgW (mW "9")
        (run_events cfgW init evs_prompt)).2 =
        [Effect.send msg_invalid_answer,
         Effect.send (format_prompt cfgW (dimAt sess_prompt.step_index))] :=
  ⟨by decide, by decide,
   c9_invalid_answer_frame cfgW (run_events cfgW init evs_prompt) sess_prompt
     (mW "9") ⟨evs_prompt, rfl⟩ (by decide) (by decide) (by decide) (by decide)
     (by decide) (by decide) (by decide)⟩

theorem c10_witness :
    (¬py_strip "hola" = "") ∧
    ∃ inv, process_entry_invocation cfgP "hola" none true (some "pw") =
        some inv ∧
      inv.cmd.getLast? = some "--push" := by
  refine ⟨by decide, ?_⟩
  obtain ⟨inv, h1, h2, h3, h4, h5⟩ :=
    c10_process_entry_flags cfgP "hola" none true (some "pw") (by decide)
  exact ⟨inv, h1, h2.mpr ⟨rfl, by decide⟩⟩

end GraceBot
